import Mathlib

set_option maxHeartbeats 1600000
set_option linter.unnecessarySeqFocus false
set_option linter.unusedTactic false

/-
Shallow embedding of the EmitC C++ emitter (mlir/lib/Target/Cpp/TranslateToCpp.cpp).
The emitter walks an MLIR module and prints C++ source text while threading a
mutable state: the output stream, a scoped value-to-name table, a scoped
block-to-label table, and per-scope name counters.

Modelling conventions:
- Machine integers (APInt) are a bit width plus raw bits as a Nat, reduced
  modulo 2 ^ width where it matters.
- llvm::ScopedHashTable is a stack of association-list frames; insertion goes
  to the innermost frame, lookup searches innermost first.
- raw_ostream is write-only: the state carries the full stream contents and
  every primitive only appends.  raw_indented_ostream (an external support
  class, not part of the translated file) additionally inserts leading
  whitespace per line; we track the indentation level that the emitter
  manipulates but do not render the whitespace, since no verified property
  depends on it.
- LogicalResult is Except String Unit; the String stands for the diagnostic
  attached to the failing construct (LogicalResult itself carries no message,
  diagnostics go to a side channel).
- Values are identified by a numeric id; an operand or block argument also
  records whether its defining operation is emitc.literal and, if so, the
  literal text (in MLIR this is recovered from the def-use chain via
  val.getDefiningOp()).
- Blocks are identified by their index in the enclosing function body, which
  plays the role of the Block pointer used as the label-table key.
-/

namespace EmitCpp

/-! ## Scoped hash tables and counter stacks -/

/-- One scope frame of an llvm::ScopedHashTable: newest binding first. -/
abbrev Frame := List (Nat × String)

/-- Lookup in a single frame. -/
def scLookupFrame : Frame → Nat → Option String
  | [], _ => none
  | (k, v) :: rest, key => if k = key then some v else scLookupFrame rest key

/-- Lookup across the frame stack, innermost frame first. -/
def scLookup : List Frame → Nat → Option String
  | [], _ => none
  | f :: fs, key =>
    match scLookupFrame f key with
    | some v => some v
    | none => scLookup fs key

/-- Insert into the innermost frame (llvm::ScopedHashTable::insert inserts
into the currently active scope). -/
def scInsert : List Frame → Nat → String → List Frame
  | [], k, v => [[(k, v)]]
  | f :: fs, k, v => ((k, v) :: f) :: fs

/-- Top of a counter stack (std::stack top). -/
def stTop : List Nat → Nat
  | [] => 0
  | c :: _ => c

/-- Increment the top counter of a stack. -/
def stIncTop : List Nat → List Nat
  | [] => []
  | c :: cs => (c + 1) :: cs

/-! ## Emitter state -/

/-- The CppEmitter fields other than the output stream. -/
structure Core where
  declareVariablesAtTop : Bool
  valueMapper : List Frame
  blockMapper : List Frame
  valueInScopeCount : List Nat
  labelInScopeCount : List Nat
  indentLevel : Nat
deriving Repr, DecidableEq

/-- Full emitter state: stream contents plus the CppEmitter fields. -/
structure St where
  out : String
  core : Core
deriving Repr, DecidableEq

/-- The emission monad: state passing with a LogicalResult; the state
(including everything already written to the stream) survives a failure. -/
abbrev EmitM (α : Type) : Type := St → Except String α × St

/-- Monad unit of EmitM. -/
def pureE (a : α) : EmitM α := fun s => (Except.ok a, s)

/-- Monad bind of EmitM: the first failure short-circuits, keeping the state
reached so far (the C++ early-return-on-failed pattern). -/
def bindE (m : EmitM α) (k : α → EmitM β) : EmitM β := fun s =>
  match m s with
  | (Except.ok a, s1) => k a s1
  | (Except.error e, s1) => (Except.error e, s1)

instance : Monad EmitM where
  pure := pureE
  bind := bindE

/-- Append text to the output stream. -/
def write (t : String) : EmitM Unit := fun s =>
  (Except.ok (), { s with out := s.out ++ t })

/-- Fail with a diagnostic (emitOpError / emitError). -/
def throwE (msg : String) : EmitM α := fun s => (Except.error msg, s)

/-- Read the emitter fields. -/
def getCore : EmitM Core := fun s => (Except.ok s.core, s)

/-- Update the emitter fields. -/
def modifyCore (f : Core → Core) : EmitM Unit := fun s =>
  (Except.ok (), { s with core := f s.core })

/-- CppEmitter::shouldDeclareVariablesAtTop. -/
def shouldDeclareVariablesAtTop : EmitM Bool := fun s =>
  (Except.ok s.core.declareVariablesAtTop, s)

/-- raw_indented_ostream::indent. -/
def indent : EmitM Unit := modifyCore fun c => { c with indentLevel := c.indentLevel + 1 }

/-- raw_indented_ostream::unindent. -/
def unindent : EmitM Unit := modifyCore fun c => { c with indentLevel := c.indentLevel - 1 }

/-- Entering a CppEmitter::Scope: the two ScopedHashTableScope members push a
fresh frame, and the constructor pushes a copy of each counter stack top. -/
def scopeEnterC (c : Core) : Core :=
  { c with
    valueMapper := [] :: c.valueMapper
    blockMapper := [] :: c.blockMapper
    valueInScopeCount := stTop c.valueInScopeCount :: c.valueInScopeCount
    labelInScopeCount := stTop c.labelInScopeCount :: c.labelInScopeCount }

/-- Leaving a CppEmitter::Scope: the destructor pops both counter stacks and
the two ScopedHashTableScope members drop their frames. -/
def scopeExitC (c : Core) : Core :=
  { c with
    valueMapper := c.valueMapper.tail
    blockMapper := c.blockMapper.tail
    valueInScopeCount := c.valueInScopeCount.tail
    labelInScopeCount := c.labelInScopeCount.tail }

/-- RAII scope: the exit runs on every path out of the body, also when the
body fails (the C++ Scope object is destroyed during unwinding). -/
def withScope (m : EmitM α) : EmitM α := fun s =>
  let s1 : St := { s with core := scopeEnterC s.core }
  let p := m s1
  (p.1, { p.2 with core := scopeExitC p.2.core })

/-! ## IR data model -/

/-- IntegerType::SignednessSemantics. -/
inductive Signedness where
  | Signless
  | Signed
  | Unsigned
deriving Repr, DecidableEq

/-- MLIR types handled by CppEmitter::emitType.  A tensor type is either
unranked (shape none) or ranked with a list of dimensions where none marks a
dynamic extent. -/
inductive MType where
  | int (width : Nat) (sign : Signedness)
  | float (width : Nat)
  | index
  | tensor (shape : Option (List (Option Nat))) (elem : MType)
  | tuple (types : List MType)
  | opaqueType (value : String)
  | pointer (pointee : MType)

/-- An APInt: bit width plus raw bits (interpreted modulo 2 ^ width). -/
structure APIntVal where
  width : Nat
  value : Nat
deriving Repr, DecidableEq

/-- The float semantics cases that CppEmitter::emitAttribute distinguishes. -/
inductive FloatSem where
  | IEEEsingle
  | IEEEdouble
  | otherSem
deriving Repr, DecidableEq

/-- An APFloat as far as printFloat observes it.  Modelled from the spec: the
digits field of a finite value stands for the APFloat::toString conversion at
full precision with no trailing-zero truncation (llvm::APFloat is external to
the translated file; its decimal conversion is not re-implemented here). -/
inductive FloatVal where
  | finite (sem : FloatSem) (digits : String)
  | nan (neg : Bool)
  | inf (neg : Bool)
deriving Repr, DecidableEq

/-- Attributes handled by CppEmitter::emitAttribute.  denseIntAttr records the
element type of the tensor type carried by the DenseIntElementsAttr. -/
inductive Attr where
  | floatAttr (v : FloatVal)
  | denseFPAttr (vals : List FloatVal)
  | intAttr (ty : MType) (v : APIntVal)
  | denseIntAttr (elemTy : MType) (vals : List APIntVal)
  | opaqueAttr (value : String)
  | symbolRefAttr (root : String) (nested : List String)
  | typeAttr (t : MType)
  | unitAttr

/-- A use of an MLIR Value: its identity plus, when the defining operation is
emitc.literal, the literal text (what dyn_cast to LiteralOp of the defining
op yields). -/
structure Value where
  id : Nat
  literalText : Option String := none
deriving Repr, DecidableEq

/-- emitc.cmp predicates. -/
inductive CmpPred where
  | eq | ne | lt | le | gt | ge | three_way
deriving Repr, DecidableEq

/-- The binary emitc arithmetic operations, all printed through
printBinaryOperation with a fixed operator string. -/
inductive BinKind where
  | add | div | mul | rem | sub
deriving Repr, DecidableEq

/-- Operator string for a binary operation kind. -/
def BinKind.str : BinKind → String
  | .add => "+"
  | .div => "/"
  | .mul => "*"
  | .rem => "%"
  | .sub => "-"

mutual
/-- Operations dispatched by CppEmitter::emitOperation.  Successor blocks of
the cf branches are indices into the enclosing function body.  Result lists
pair the result value id with its type. -/
inductive Op where
  | moduleOp (body : List Op)
  | funcOp (name : String) (resultTypes : List MType) (blocks : List BBlock)
  | returnOp (operands : List Value) (attrs : List (String × Attr))
  | constantOp (result : Nat) (resultType : MType) (value : Attr)
  | variableOp (result : Nat) (resultType : MType) (value : Attr)
  | arithConstantOp (result : Nat) (resultType : MType) (value : Attr)
  | funcConstantOp (result : Nat) (resultType : MType) (value : Attr)
  | literalOp (result : Nat) (value : String)
  | assignOp (varResult : Nat) (value : Value)
  | binaryOp (kind : BinKind) (results : List (Nat × MType)) (lhs rhs : Value)
  | cmpOp (predicate : CmpPred) (results : List (Nat × MType)) (lhs rhs : Value)
  | branchOp (successor : Nat) (operands : List Value)
  | condBranchOp (condition : Value) (trueDest : Nat) (trueOperands : List Value)
      (falseDest : Nat) (falseOperands : List Value)
  | callOpFunc (callee : String) (results : List (Nat × MType)) (operands : List Value)
  | callOp (callee : String) (results : List (Nat × MType)) (operands : List Value)
      (templateArgs : Option (List Attr)) (args : Option (List Attr))
  | applyOp (applicableOperator : String) (result : Nat) (resultType : MType) (operand : Value)
  | castOp (result : Nat) (resultType : MType) (operand : Value)
  | includeOp (isStandardInclude : Bool) (includeFile : String)
  | forOp (lowerBound upperBound step : Value) (inductionVar : Nat)
      (inductionVarType : MType) (body : List Op)
  | ifOp (condition : Value) (thenRegion : List Op) (elseRegion : List Op)
  | yieldOp
  | unknownOp (name : String)

/-- A basic block: its arguments (id and type) and its operations. -/
inductive BBlock where
  | mk (args : List (Nat × MType)) (ops : List Op)
end

/-- Arguments of a block. -/
def BBlock.args : BBlock → List (Nat × MType)
  | .mk a _ => a

/-- Operations of a block. -/
def BBlock.ops : BBlock → List Op
  | .mk _ o => o

/-! ## Name allocation and scope queries -/

/-- CppEmitter::getOrCreateName(Value): an emitc.literal result prints as its
literal text and bypasses the table; otherwise return the bound name or mint
a fresh sequential v-name, bumping the top counter. -/
def getOrCreateName (val : Value) : EmitM String := fun s =>
  match val.literalText with
  | some t => (Except.ok t, s)
  | none =>
    match scLookup s.core.valueMapper val.id with
    | some n => (Except.ok n, s)
    | none =>
      let n := "v" ++ Nat.repr (stTop s.core.valueInScopeCount + 1)
      (Except.ok n,
        { s with core :=
          { s.core with
            valueMapper := scInsert s.core.valueMapper val.id n
            valueInScopeCount := stIncTop s.core.valueInScopeCount } })

/-- CppEmitter::getOrCreateName(Block): return the bound label or mint a
fresh sequential label-name, bumping the top label counter. -/
def getOrCreateNameBlock (block : Nat) : EmitM String := fun s =>
  match scLookup s.core.blockMapper block with
  | some n => (Except.ok n, s)
  | none =>
    let n := "label" ++ Nat.repr (stTop s.core.labelInScopeCount + 1)
    (Except.ok n,
      { s with core :=
        { s.core with
          blockMapper := scInsert s.core.blockMapper block n
          labelInScopeCount := stIncTop s.core.labelInScopeCount } })

/-- CppEmitter::hasValueInScope. -/
def hasValueInScope (val : Value) : EmitM Bool := fun s =>
  (Except.ok (scLookup s.core.valueMapper val.id).isSome, s)

/-- CppEmitter::hasBlockLabel. -/
def hasBlockLabel (block : Nat) : EmitM Bool := fun s =>
  (Except.ok (scLookup s.core.blockMapper block).isSome, s)

/-- CppEmitter::shouldMapToUnsigned. -/
def shouldMapToUnsigned : Signedness → Bool
  | .Signless => false
  | .Signed => false
  | .Unsigned => true

/-! ## Type printing -/

mutual
/-- CppEmitter::emitType.  The integer and float switches over the width are
rendered as equality tests with the same cases and the same fall-through
errors. -/
def emitType : MType → EmitM Unit
  | .int width sign =>
    if width = 1 then
      write "bool"
    else if width = 8 ∨ width = 16 ∨ width = 32 ∨ width = 64 then
      if shouldMapToUnsigned sign then
        write ("uint" ++ Nat.repr width ++ "_t")
      else
        write ("int" ++ Nat.repr width ++ "_t")
    else
      throwE "cannot emit integer type"
  | .float width =>
    if width = 32 then write "float"
    else if width = 64 then write "double"
    else throwE "cannot emit float type"
  | .index => write "size_t"
  | .tensor shape elem =>
    match shape with
    | none => throwE "cannot emit unranked tensor type"
    | some dims =>
      if dims.all (fun d => d.isSome) then do
        write "Tensor<"
        emitType elem
        write (String.join (dims.map (fun d => ", " ++ Nat.repr (d.getD 0))))
        write ">"
      else
        throwE "cannot emit tensor type with non static shape"
  | .tuple types => emitTupleType types
  | .opaqueType value => write value
  | .pointer pointee => do
    emitType pointee
    write "*"

/-- interleaveCommaWithError over a type list with emitType as eachFn. -/
def emitTypeListComma : List MType → EmitM Unit
  | [] => pure ()
  | [t] => emitType t
  | t :: rest => do
    emitType t
    write ", "
    emitTypeListComma rest

/-- CppEmitter::emitTupleType: a std::tuple wrapper independent of arity. -/
def emitTupleType (types : List MType) : EmitM Unit := do
  write "std::tuple<"
  emitTypeListComma types
  write ">"
end

/-- CppEmitter::emitTypes: void for arity 0, the sole type for arity 1, a
tuple otherwise. -/
def emitTypes (types : List MType) : EmitM Unit :=
  match types with
  | [] => write "void"
  | [t] => emitType t
  | ts => emitTupleType ts

/-! ## Attribute printing -/

/-- The printInt lambda of emitAttribute: bit width 1 prints a boolean
literal from getBoolValue, anything else prints decimal with APInt::toString,
signed unless the type is mapped to unsigned. -/
def printIntStr (val : APIntVal) (isUnsigned : Bool) : String :=
  if val.width = 1 then
    if val.value % 2 ^ val.width ≠ 0 then "true" else "false"
  else
    let bits := val.value % 2 ^ val.width
    if isUnsigned then Nat.repr bits
    else if bits < 2 ^ (val.width - 1) then Nat.repr bits
    else "-" ++ Nat.repr (2 ^ val.width - bits)

/-- The printFloat lambda of emitAttribute: finite values print their
full-precision digits behind a cast for single and double semantics, NaN
prints the NAN macro, infinities print INFINITY with a minus sign when
negative. -/
def printFloatStr : FloatVal → String
  | .finite sem digits =>
    (match sem with
     | .IEEEsingle => "(float)"
     | .IEEEdouble => "(double)"
     | .otherSem => "") ++ digits
  | .nan _ => "NAN"
  | .inf neg => (if neg then "-" else "") ++ "INFINITY"

/-- CppEmitter::emitAttribute.  The C++ is a chain of dyn_cast tests; an
IntegerAttr or DenseIntElementsAttr whose (element) type is neither an
integer nor an index type falls through every later cast and reaches the
final diagnostic, which the catch-all arms reproduce directly. -/
def emitAttribute (attr : Attr) : EmitM Unit :=
  match attr with
  | .floatAttr v => write (printFloatStr v)
  | .denseFPAttr vals =>
    write ("\x7b" ++ String.intercalate ", " (vals.map printFloatStr) ++ "\x7d")
  | .intAttr ty v =>
    match ty with
    | .int _ sign => write (printIntStr v (shouldMapToUnsigned sign))
    | .index => write (printIntStr v false)
    | _ => throwE "cannot emit attribute"
  | .denseIntAttr elemTy vals =>
    match elemTy with
    | .int _ sign =>
      write ("\x7b" ++
        String.intercalate ", "
          (vals.map (fun v => printIntStr v (shouldMapToUnsigned sign))) ++ "\x7d")
    | .index =>
      write ("\x7b" ++
        String.intercalate ", " (vals.map (fun v => printIntStr v false)) ++ "\x7d")
    | _ => throwE "cannot emit attribute"
  | .opaqueAttr value => write value
  | .symbolRefAttr root nested =>
    if nested.length > 1 then throwE "attribute has more than 1 nested reference"
    else write root
  | .typeAttr t => emitType t
  | .unitAttr => throwE "cannot emit attribute"

/-! ## Interleaving and shared emission helpers -/

/-- Tail part of interleaveWithError: betweenFn before every further
element. -/
def interleaveTail (eachFn : α → EmitM Unit) (betweenFn : EmitM Unit) :
    List α → EmitM Unit
  | [] => pure ()
  | x :: rest => do
    betweenFn
    eachFn x
    interleaveTail eachFn betweenFn rest

/-- interleaveWithError of the translated file: eachFn on the first element,
then betweenFn and eachFn on each following element, stopping at the first
failure. -/
def interleaveWithError (xs : List α) (eachFn : α → EmitM Unit)
    (betweenFn : EmitM Unit) : EmitM Unit :=
  match xs with
  | [] => pure ()
  | x :: rest => do
    eachFn x
    interleaveTail eachFn betweenFn rest

/-- interleaveCommaWithError. -/
def interleaveCommaWithError (xs : List α) (eachFn : α → EmitM Unit) : EmitM Unit :=
  interleaveWithError xs eachFn (write ", ")

/-- The emitOperandName lambda of CppEmitter::emitOperands: a value that is
neither literal-defined nor bound in scope is an error, otherwise its name is
printed. -/
def emitOperandName (result : Value) : EmitM Unit := do
  let inScope ← hasValueInScope result
  if result.literalText.isNone ∧ !inScope then
    throwE "operand value not in scope"
  else do
    let n ← getOrCreateName result
    write n

/-- CppEmitter::emitOperands. -/
def emitOperands (operands : List Value) : EmitM Unit :=
  interleaveCommaWithError operands emitOperandName

/-- CppEmitter::emitOperandsAndAttributes: all operands, a separating comma
when some non-excluded attribute follows, then the attributes each prefixed
by a name comment. -/
def emitOperandsAndAttributes (operands : List Value)
    (attrs : List (String × Attr)) (exclude : List String) : EmitM Unit := do
  emitOperands operands
  if operands.length > 0 ∧ attrs.any (fun a => !(exclude.contains a.1)) then
    write ", "
  interleaveCommaWithError attrs (fun a =>
    if exclude.contains a.1 then pure ()
    else do
      write ("/* " ++ a.1 ++ " */")
      emitAttribute a.2)

/-- CppEmitter::emitVariableAssignment: the result must already have a name
in scope. -/
def emitVariableAssignment (result : Nat) : EmitM Unit := do
  let inScope ← hasValueInScope ⟨result, none⟩
  if !inScope then
    throwE "result variable for the operation has not been declared"
  else do
    let n ← getOrCreateName ⟨result, none⟩
    write (n ++ " = ")

/-- CppEmitter::emitVariableDeclaration: the result must not be declared yet;
prints type and fresh name, optionally a trailing semicolon. -/
def emitVariableDeclaration (result : Nat) (resultType : MType)
    (trailingSemicolon : Bool) : EmitM Unit := do
  let inScope ← hasValueInScope ⟨result, none⟩
  if inScope then
    throwE "result variable for the operation already declared"
  else do
    emitType resultType
    let n ← getOrCreateName ⟨result, none⟩
    write (" " ++ n)
    if trailingSemicolon then write ";\n"

/-- The pre-declaration loop of the multi-result arm of emitAssignPrefix. -/
def declareAllResults : List (Nat × MType) → EmitM Unit
  | [] => pure ()
  | (r, t) :: rest => do
    emitVariableDeclaration r t true
    declareAllResults rest

/-- CppEmitter::emitAssignPrefix over the result list of an operation:
nothing for zero results; assignment or inline declaration for one result;
optional inline declarations and a std::tie for several results. -/
def emitAssignPrefixOf (results : List (Nat × MType)) : EmitM Unit :=
  match results with
  | [] => pure ()
  | [(r, t)] => do
    if (← shouldDeclareVariablesAtTop) then
      emitVariableAssignment r
    else do
      emitVariableDeclaration r t false
      write " = "
  | _ => do
    if !(← shouldDeclareVariablesAtTop) then
      declareAllResults results
    write "std::tie("
    interleaveCommaWithError results (fun r => do
      let n ← getOrCreateName ⟨r.1, none⟩
      write n)
    write ") = "

/-- CppEmitter::emitLabel; the label line goes through os.getOStream so the
indentation wrapper is bypassed. -/
def emitLabel (block : Nat) : EmitM Unit := do
  let has ← hasBlockLabel block
  if !has then
    throwE "label for block not found"
  else do
    let n ← getOrCreateNameBlock block
    write (n ++ ":\n")

/-! ## Per-operation printers without nested regions -/

/-- Whether an attribute is an emitc::OpaqueAttr with empty text (the
dyn_cast plus getValue().empty() test of printConstantOp). -/
def isEmptyOpaqueAttr : Attr → Bool
  | .opaqueAttr t => t.isEmpty
  | _ => false

/-- printConstantOp, shared by the emitc.constant, emitc.variable,
arith.constant and func.constant printers. -/
def printConstantOp (result : Nat) (resultType : MType) (value : Attr) :
    EmitM Unit := do
  if (← shouldDeclareVariablesAtTop) then
    -- Only emit an assignment as the variable was already declared when
    -- printing the FuncOp; skip it when the constant has no value.
    if isEmptyOpaqueAttr value then
      pure ()
    else do
      emitVariableAssignment result
      emitAttribute value
  else
    -- Emit a variable declaration without initializer for a constant
    -- without value; the semicolon gets printed by emitOperation.
    if isEmptyOpaqueAttr value then
      emitVariableDeclaration result resultType false
    else do
      emitAssignPrefixOf [(result, resultType)]
      emitAttribute value

/-- printOperation for emitc.assign: assignment to the variable result, then
the name of the assigned value. -/
def printAssignOp (varResult : Nat) (value : Value) : EmitM Unit := do
  emitVariableAssignment varResult
  let n ← getOrCreateName value
  write n

/-- printBinaryOperation: assignment prefix, then lhs OP rhs by bound
names. -/
def printBinaryOperation (results : List (Nat × MType)) (lhs rhs : Value)
    (binaryOperator : String) : EmitM Unit := do
  emitAssignPrefixOf results
  let a ← getOrCreateName lhs
  write a
  write (" " ++ binaryOperator)
  let b ← getOrCreateName rhs
  write (" " ++ b)

/-- The fixed predicate-to-operator table of the emitc.cmp printer. -/
def cmpOperatorStr (predicate : CmpPred) : String :=
  match predicate with
  | CmpPred.eq => "=="
  | CmpPred.ne => "!="
  | CmpPred.lt => "<"
  | CmpPred.le => "<="
  | CmpPred.gt => ">"
  | CmpPred.ge => ">="
  | CmpPred.three_way => "<=>"

/-- printOperation for func.call. -/
def printCallOpFunc (callee : String) (results : List (Nat × MType))
    (operands : List Value) : EmitM Unit := do
  emitAssignPrefixOf results
  write (callee ++ "(")
  emitOperands operands
  write ")"

/-- Signed value of an APInt (IntegerAttr::getInt). -/
def APIntVal.toSigned (v : APIntVal) : Int :=
  let bits := v.value % 2 ^ v.width
  if v.width = 0 then 0
  else if bits < 2 ^ (v.width - 1) then (bits : Int)
  else (bits : Int) - (2 ^ v.width : Int)

/-- The emitArgs lambda of the emitc.call printer: an index-typed integer
attribute denotes the operand with that index (which must be in range and in
scope); any other attribute is emitted as a literal. -/
def emitCallArg (operands : List Value) (attr : Attr) : EmitM Unit :=
  match attr with
  | .intAttr .index v =>
    if v.toSigned < 0 ∨ v.toSigned ≥ (operands.length : Int) then
      throwE "invalid operand index"
    else do
      let inScope ← hasValueInScope (operands.getD v.toSigned.toNat ⟨0, none⟩)
      if !inScope then
        throwE "operand value not defined in scope"
      else do
        let n ← getOrCreateName (operands.getD v.toSigned.toNat ⟨0, none⟩)
        write n
  | _ => emitAttribute attr

/-- printOperation for emitc.call: callee, optional template argument list,
then either the explicit argument attributes or the operands. -/
def printCallOp (callee : String) (results : List (Nat × MType))
    (operands : List Value) (templateArgs : Option (List Attr))
    (args : Option (List Attr)) : EmitM Unit := do
  emitAssignPrefixOf results
  write callee
  match templateArgs with
  | some tArgs => do
    write "<"
    interleaveCommaWithError tArgs (emitCallArg operands)
    write ">"
  | none => pure ()
  write "("
  match args with
  | some argList => interleaveCommaWithError argList (emitCallArg operands)
  | none => emitOperands operands
  write ")"

/-- printOperation for emitc.apply: operator text directly followed by the
operand name. -/
def printApplyOp (applicableOperator : String) (result : Nat)
    (resultType : MType) (operand : Value) : EmitM Unit := do
  emitAssignPrefixOf [(result, resultType)]
  write applicableOperator
  let n ← getOrCreateName operand
  write n

/-- printOperation for emitc.cast: parenthesized result type, then the
operand name. -/
def printCastOp (result : Nat) (resultType : MType) (operand : Value) :
    EmitM Unit := do
  emitAssignPrefixOf [(result, resultType)]
  write "("
  emitType resultType
  write ") "
  let n ← getOrCreateName operand
  write n

/-- printOperation for emitc.include. -/
def printIncludeOp (isStandardInclude : Bool) (includeFile : String) :
    EmitM Unit := do
  write "#include "
  if isStandardInclude then
    write ("<" ++ includeFile ++ ">")
  else
    write ("\"" ++ includeFile ++ "\"")

/-- printOperation for func.return: bare return for zero operands; the
operand name with an in-scope check for one operand; a std::make_tuple of
the operands and attributes otherwise. -/
def printReturnOp (operands : List Value) (attrs : List (String × Attr)) :
    EmitM Unit := do
  write "return"
  match operands with
  | [] => pure ()
  | [operand] => do
    let n ← getOrCreateName operand
    write (" " ++ n)
    let inScope ← hasValueInScope operand
    if inScope then pure ()
    else throwE "return of a value not in scope"
  | _ => do
    write " std::make_tuple("
    emitOperandsAndAttributes operands attrs []
    write ")"

/-- The phi-resolving assignment loop shared by the branch printers: zip of
branch operands with successor block arguments, an assignment per pair. -/
def branchAssignments : List Value → List (Nat × MType) → EmitM Unit
  | operand :: operands, (argId, _) :: args => do
    let a ← getOrCreateName ⟨argId, none⟩
    write (a ++ " = ")
    let o ← getOrCreateName operand
    write (o ++ ";\n")
    branchAssignments operands args
  | _, _ => pure ()

/-- Successor block arguments, resolved against the enclosing function
body. -/
def successorArgs (ctx : List BBlock) (successor : Nat) : List (Nat × MType) :=
  ((ctx.get? successor).map BBlock.args).getD []

/-- printOperation for cf.br: argument assignments, then goto the successor
label, failing when the successor has no label. -/
def printBranchOp (ctx : List BBlock) (successor : Nat)
    (operands : List Value) : EmitM Unit := do
  branchAssignments operands (successorArgs ctx successor)
  write "goto "
  let has ← hasBlockLabel successor
  if !has then
    throwE "unable to find label for successor block"
  else do
    let n ← getOrCreateNameBlock successor
    write n

/-- printOperation for cf.cond_br: an if/else pair, each arm doing its
argument assignments and a goto to its successor label. -/
def printCondBranchOp (ctx : List BBlock) (condition : Value) (trueDest : Nat)
    (trueOperands : List Value) (falseDest : Nat) (falseOperands : List Value) :
    EmitM Unit := do
  let c ← getOrCreateName condition
  write ("if (" ++ c ++ ") \x7b\n")
  indent
  branchAssignments trueOperands (successorArgs ctx trueDest)
  write "goto "
  let hasT ← hasBlockLabel trueDest
  if !hasT then
    throwE "unable to find label for successor block"
  else do
    let nT ← getOrCreateNameBlock trueDest
    write (nT ++ ";\n")
    unindent
    write "\x7d else \x7b\n"
    indent
    branchAssignments falseOperands (successorArgs ctx falseDest)
    write "goto "
    let hasF ← hasBlockLabel falseDest
    if !hasF then
      throwE "unable to find label for successor block"
    else do
      let nF ← getOrCreateNameBlock falseDest
      write (nF ++ ";\n")
      unindent
      write "\x7d"

/-! ## Function emission helpers -/

/-- The typed results of an operation (OpResult list). -/
def opResults : Op → List (Nat × MType)
  | .constantOp r t _ => [(r, t)]
  | .variableOp r t _ => [(r, t)]
  | .arithConstantOp r t _ => [(r, t)]
  | .funcConstantOp r t _ => [(r, t)]
  | .binaryOp _ rs _ _ => rs
  | .cmpOp _ rs _ _ => rs
  | .callOpFunc _ rs _ => rs
  | .callOp _ rs _ _ _ => rs
  | .applyOp _ r t _ => [(r, t)]
  | .castOp r t _ => [(r, t)]
  | _ => []

/-- Result declarations for one visited operation of the declare-at-top walk;
a failing declaration interrupts the walk with the diagnostic attached by the
walk callback. -/
def declareOpResults : List (Nat × MType) → EmitM Unit
  | [] => pure ()
  | (r, t) :: rest => fun s =>
    match emitVariableDeclaration r t true s with
    | (Except.ok _, s1) => declareOpResults rest s1
    | (Except.error _, s1) =>
      (Except.error "unable to declare result variable for op", s1)

mutual
/-- The functionOp.walk of printOperation(FuncOp): pre-order over all nested
operations, skipping emitc.literal subtrees, declaring every result. -/
def walkDeclareOp (op : Op) : EmitM Unit :=
  match op with
  | .literalOp _ _ => pure ()
  | .moduleOp body => walkDeclareList body
  | .funcOp _ _ blocks => walkDeclareBlocks blocks
  | .forOp _ _ _ _ _ body => walkDeclareList body
  | .ifOp _ thenRegion elseRegion => do
    walkDeclareList thenRegion
    walkDeclareList elseRegion
  | other => declareOpResults (opResults other)
termination_by sizeOf op
decreasing_by all_goals (simp_wf <;> omega)

/-- walkDeclareOp over an operation list. -/
def walkDeclareList : List Op → EmitM Unit
  | [] => pure ()
  | op :: rest => do
    walkDeclareOp op
    walkDeclareList rest
termination_by ops => sizeOf ops
decreasing_by all_goals (simp_wf <;> omega)

/-- walkDeclareOp over the blocks of a region. -/
def walkDeclareBlocks : List BBlock → EmitM Unit
  | [] => pure ()
  | .mk _ ops :: rest => do
    walkDeclareList ops
    walkDeclareBlocks rest
termination_by blocks => sizeOf blocks
decreasing_by all_goals (simp_wf <;> omega)
end

/-- The label pre-pass of printOperation(FuncOp): create label names for all
basic blocks before any block body is emitted. -/
def createBlockLabels (count : Nat) (idx : Nat) : EmitM Unit :=
  match count with
  | 0 => pure ()
  | n + 1 => do
    let _ ← getOrCreateNameBlock idx
    createBlockLabels n (idx + 1)

/-- The block-argument declarations of one non-entry block. -/
def declareArgList : List (Nat × MType) → EmitM Unit
  | [] => pure ()
  | (argId, argTy) :: rest => do
    let inScope ← hasValueInScope ⟨argId, none⟩
    if inScope then
      throwE "block argument is out of scope"
    else do
      emitType argTy
      let n ← getOrCreateName ⟨argId, none⟩
      write (" " ++ n ++ ";\n")
      declareArgList rest

/-- Declare variables for the arguments of every given (non-entry) block. -/
def declareBlockArgs : List BBlock → EmitM Unit
  | [] => pure ()
  | b :: rest => do
    declareArgList b.args
    declareBlockArgs rest

/-- Whether some operation of the function body branches to block idx (the
predecessor edges backing Block::hasNoPredecessors). -/
def opTargetsBlock (idx : Nat) : Op → Bool
  | .branchOp successor _ => successor == idx
  | .condBranchOp _ trueDest _ falseDest _ => trueDest == idx || falseDest == idx
  | _ => false

/-- Block::hasNoPredecessors for block idx of the function body. -/
def hasNoPredecessorsB (ctx : List BBlock) (idx : Nat) : Bool :=
  !(ctx.any (fun b => b.ops.any (opTargetsBlock idx)))

/-- The trailing-semicolon policy of the block-emission loop: no semicolon
after ops whose printer emits a complete construct. -/
def trailingSemicolonFor : Op → Bool
  | .condBranchOp _ _ _ _ _ => false
  | .forOp _ _ _ _ _ _ => false
  | .ifOp _ _ _ => false
  | .literalOp _ _ => false
  | _ => true

/-- Entry-block arguments, which are the function parameters
(FuncOp::getArguments). -/
def funcArguments (blocks : List BBlock) : List (Nat × MType) :=
  ((blocks.head?).map BBlock.args).getD []

/-- The parameter list of the function signature: type and fresh name per
entry-block argument. -/
def emitFuncParameters (args : List (Nat × MType)) : EmitM Unit :=
  interleaveCommaWithError args (fun arg => do
    emitType arg.2
    let n ← getOrCreateName ⟨arg.1, none⟩
    write (" " ++ n))

/-! ## Operation dispatch and region recursion -/

mutual
/-- CppEmitter::emitOperation: the closed dispatch over operation kinds,
followed by the trailing semicolon or newline (suppressed entirely for
emitc.literal). -/
def emitOperation (ctx : List BBlock) (op : Op) (trailingSemicolon : Bool) :
    EmitM Unit := do
  (match op with
   | .moduleOp body => withScope (printModuleOps body)
   | .funcOp name resultTypes blocks => printFuncOp name resultTypes blocks
   | .returnOp operands attrs => printReturnOp operands attrs
   | .constantOp r t v => printConstantOp r t v
   | .variableOp r t v => printConstantOp r t v
   | .arithConstantOp r t v => printConstantOp r t v
   | .funcConstantOp r t v => printConstantOp r t v
   | .literalOp _ _ => pure ()
   | .assignOp varResult value => printAssignOp varResult value
   | .binaryOp kind rs lhs rhs => printBinaryOperation rs lhs rhs kind.str
   | .cmpOp predicate rs lhs rhs =>
     printBinaryOperation rs lhs rhs (cmpOperatorStr predicate)
   | .branchOp successor operands => printBranchOp ctx successor operands
   | .condBranchOp condition trueDest trueOperands falseDest falseOperands =>
     printCondBranchOp ctx condition trueDest trueOperands falseDest falseOperands
   | .callOpFunc callee rs operands => printCallOpFunc callee rs operands
   | .callOp callee rs operands templateArgs args =>
     printCallOp callee rs operands templateArgs args
   | .applyOp applicableOperator r t operand => printApplyOp applicableOperator r t operand
   | .castOp r t operand => printCastOp r t operand
   | .includeOp isStandardInclude includeFile =>
     printIncludeOp isStandardInclude includeFile
   | .forOp lowerBound upperBound step inductionVar inductionVarType body =>
     printForOp ctx lowerBound upperBound step inductionVar inductionVarType body
   | .ifOp condition thenRegion elseRegion =>
     printIfOp ctx condition thenRegion elseRegion
   | .yieldOp => throwE "unable to find printer for op"
   | .unknownOp _ => throwE "unable to find printer for op")
  match op with
  | .literalOp _ _ => pure ()
  | _ => write (if trailingSemicolon then ";\n" else "\n")
termination_by (sizeOf op, 0)
decreasing_by all_goals (simp_wf <;> omega)

/-- The loop of printOperation(ModuleOp): every contained operation without
trailing semicolon, inside the module scope. -/
def printModuleOps : List Op → EmitM Unit
  | [] => pure ()
  | op :: rest => do
    emitOperation [] op false
    printModuleOps rest
termination_by ops => (sizeOf ops, 0)
decreasing_by all_goals (simp_wf <;> omega)

/-- printOperation(FuncOp): the declare-at-top precondition for multi-block
bodies, then the scoped function body emission. -/
def printFuncOp (name : String) (resultTypes : List MType)
    (blocks : List BBlock) : EmitM Unit := do
  if !(← shouldDeclareVariablesAtTop) ∧ blocks.length > 1 then
    throwE "with multiple blocks needs variables declared at top"
  else
    withScope (printFuncOpBody name resultTypes blocks)
termination_by (sizeOf blocks, 2)
decreasing_by all_goals (simp_wf <;> omega)

/-- Everything printOperation(FuncOp) does after the multi-block
precondition: signature, optional up-front declarations, label pre-pass,
block-argument declarations, then the labelled blocks. -/
def printFuncOpBody (name : String) (resultTypes : List MType)
    (blocks : List BBlock) : EmitM Unit := do
  emitTypes resultTypes
  write (" " ++ name)
  write "("
  emitFuncParameters (funcArguments blocks)
  write ") \x7b\n"
  indent
  if (← shouldDeclareVariablesAtTop) then
    -- Declare all variables that hold op results including those from
    -- nested regions (the FuncOp itself has no results).
    walkDeclareBlocks blocks
  createBlockLabels blocks.length 0
  declareBlockArgs (blocks.drop 1)
  emitFuncBlocks blocks blocks 0
  unindent
  write "\x7d\n"
termination_by (sizeOf blocks, 1)
decreasing_by all_goals (simp_wf <;> omega)

/-- The per-block loop of printOperation(FuncOp): a label line only when the
block has predecessors, then the block operations with the per-kind
trailing-semicolon policy. -/
def emitFuncBlocks (ctx : List BBlock) :
    List BBlock → Nat → EmitM Unit
  | [], _ => pure ()
  | .mk args ops :: rest, idx => do
    if !(hasNoPredecessorsB ctx idx) then
      emitLabel idx
    printBlockOps ctx ops
    emitFuncBlocks ctx rest (idx + 1)
termination_by blocks _ => (sizeOf blocks, 0)
decreasing_by all_goals (simp_wf <;> omega)

/-- The operation loop of one block. -/
def printBlockOps (ctx : List BBlock) : List Op → EmitM Unit
  | [] => pure ()
  | op :: rest => do
    emitOperation ctx op (trailingSemicolonFor op)
    printBlockOps ctx rest
termination_by ops => (sizeOf ops, 0)
decreasing_by all_goals (simp_wf <;> omega)

/-- printOperation for emitc.for: counted loop header from the bound names,
then the body region except its trailing yield. -/
def printForOp (ctx : List BBlock) (lowerBound upperBound step : Value)
    (inductionVar : Nat) (inductionVarType : MType) (body : List Op) :
    EmitM Unit := do
  write "for ("
  emitType inductionVarType
  write " "
  let iv ← getOrCreateName ⟨inductionVar, none⟩
  write iv
  write " = "
  let lb ← getOrCreateName lowerBound
  write lb
  write "; "
  let iv2 ← getOrCreateName ⟨inductionVar, none⟩
  write iv2
  write " < "
  let ub ← getOrCreateName upperBound
  write ub
  write "; "
  let iv3 ← getOrCreateName ⟨inductionVar, none⟩
  write iv3
  write " += "
  let st ← getOrCreateName step
  write st
  write ") \x7b\n"
  indent
  emitAllButLast ctx body
  unindent
  write "\x7d"
termination_by (sizeOf body, 1)
decreasing_by all_goals (simp_wf <;> omega)

/-- printOperation for emitc.if: condition from the operands, then each
region except its trailing yield; the else part only for a nonempty else
region. -/
def printIfOp (ctx : List BBlock) (condition : Value) (thenRegion : List Op)
    (elseRegion : List Op) : EmitM Unit := do
  write "if ("
  emitOperands [condition]
  write ") \x7b\n"
  indent
  emitAllButLast ctx thenRegion
  unindent
  write "\x7d"
  if !elseRegion.isEmpty then
    write " else \x7b\n"
    indent
    emitAllButLast ctx elseRegion
    unindent
    write "\x7d"
termination_by (sizeOf thenRegion + sizeOf elseRegion, 1)
decreasing_by all_goals (simp_wf <;> omega)

/-- The all-but-the-trailing-yield loop shared by the emitc.for and emitc.if
printers; every emitted operation gets a trailing semicolon. -/
def emitAllButLast (ctx : List BBlock) : List Op → EmitM Unit
  | [] => pure ()
  | [_] => pure ()
  | op :: rest => do
    emitOperation ctx op true
    emitAllButLast ctx rest
termination_by ops => (sizeOf ops, 0)
decreasing_by all_goals (simp_wf <;> omega)
end

/-- The CppEmitter constructor state: empty mappers without an open scope,
one zero on each counter stack. -/
def CppEmitterInit (declareVariablesAtTop : Bool) : Core :=
  { declareVariablesAtTop := declareVariablesAtTop
    valueMapper := []
    blockMapper := []
    valueInScopeCount := [0]
    labelInScopeCount := [0]
    indentLevel := 0 }

/-- emitc::translateToCpp: construct a fresh emitter over the given stream
contents and emit the root operation without trailing semicolon. -/
def translateToCpp (op : Op) (declareVariablesAtTop : Bool)
    (streamContents : String) : Except String Unit × St :=
  emitOperation [] op false ⟨streamContents, CppEmitterInit declareVariablesAtTop⟩

/-! ## Verification layer: how one emission step may change the state -/

/-- Fold a list of insertions into a scoped table (last list element first,
so the head of the list is the newest binding). -/
def scInsertAll (added : List (Nat × String)) (m : List Frame) : List Frame :=
  added.foldr (fun kv acc => scInsert acc kv.1 kv.2) m

/-- The scoped table grew only by insertions into the innermost scope. -/
def extendsTop (m m' : List Frame) : Prop := ∃ added, m' = scInsertAll added m

/-- Add k to the top counter of a stack. -/
def incTopK (k : Nat) : List Nat → List Nat
  | [] => []
  | c :: cs => (c + k) :: cs

/-- The counter stack changed only by increments of its top entry. -/
def bumpTop (cs cs' : List Nat) : Prop := ∃ k, cs' = incTopK k cs

/-- How the emitter fields may evolve across one emission step: the policy
flag is untouched, both scoped tables only gain innermost bindings (scope
push/pop pairs inside the step are balanced and cancel), and both counter
stacks only bump their top entry.  The indentation level is unconstrained. -/
def coreLe (c c' : Core) : Prop :=
  c'.declareVariablesAtTop = c.declareVariablesAtTop ∧
  extendsTop c.valueMapper c'.valueMapper ∧
  extendsTop c.blockMapper c'.blockMapper ∧
  bumpTop c.valueInScopeCount c'.valueInScopeCount ∧
  bumpTop c.labelInScopeCount c'.labelInScopeCount

/-- Soundness predicate for an emission computation: from any emitter fields
the result, the emitted text and the final fields are determined (the stream
is write-only, so the text already present influences nothing), the emitted
text is appended, and the fields evolve by coreLe. -/
def EmOK {α : Type} (m : EmitM α) : Prop :=
  ∀ c : Core, ∃ (r : Except String α) (δ : String) (c' : Core),
    coreLe c c' ∧ ∀ o : String, m ⟨o, c⟩ = (r, ⟨o ++ δ, c'⟩)

/-- Every block index below n has a label in the block mapper. -/
def allBlocksLabeled (n : Nat) (c : Core) : Prop :=
  ∀ j, j < n → (scLookup c.blockMapper j).isSome = true

/-- Pure mirror of getOrCreateName: the name that getOrCreateName returns
when run with emitter fields c (literal text, bound name, or the fresh
v-name). -/
def getNamePure (c : Core) (val : Value) : String :=
  match val.literalText with
  | some t => t
  | none =>
    match scLookup c.valueMapper val.id with
    | some n => n
    | none => "v" ++ Nat.repr (stTop c.valueInScopeCount + 1)

/-- Comma-prefixed names of the non-first operands. -/
def commaNames (c : Core) : List Value → String
  | [] => ""
  | o :: rest => ", " ++ getNamePure c o ++ commaNames c rest

/-- The comma-separated operand-name list that emitOperands prints when every
operand is literal-defined or already bound (no minting, so all names are
read off the same fields c). -/
def operandNamesStr (c : Core) : List Value → String
  | [] => ""
  | o :: rest => getNamePure c o ++ commaNames c rest

/-- Concatenation of a list of output chunks. -/
def strConcat : List String → String
  | [] => ""
  | x :: xs => x ++ strConcat xs

/-- Specification-shaped block loop, written from the documented rule: the
label assigned to the block in the block mapper, followed by a colon and a
newline, is appended to the output exactly when the block has at least one
predecessor edge (a predecessor-less block contributes no label text at
all); the block operations and the remaining blocks then run from that
point. emitFuncBlocks is proved equal to this function whenever every
block index in range carries a label. -/
def emitFuncBlocksSpec (ctx : List BBlock) :
    List BBlock → Nat → EmitM Unit
  | [], _ => pure ()
  | .mk _ ops :: rest, idx => fun s =>
    bindE (printBlockOps ctx ops)
      (fun _ => emitFuncBlocksSpec ctx rest (idx + 1))
      ⟨s.out ++ (if hasNoPredecessorsB ctx idx then ""
                 else (scLookup s.core.blockMapper idx).getD "" ++ ":\n"),
       s.core⟩

/-- Pure mirror of the state effect of getOrCreateName: unchanged fields for
a literal-defined or already-bound value, otherwise the fresh binding plus
the counter bump. -/
def getNameCore (c : Core) (val : Value) : Core :=
  match val.literalText with
  | some _ => c
  | none =>
    match scLookup c.valueMapper val.id with
    | some _ => c
    | none =>
      { c with
        valueMapper := scInsert c.valueMapper val.id
          ("v" ++ Nat.repr (stTop c.valueInScopeCount + 1))
        valueInScopeCount := stIncTop c.valueInScopeCount }

/-! ## Helper lemmas about the monad and the state evolution relation -/

theorem bind_def (m : EmitM α) (k : α → EmitM β) : m >>= k = bindE m k := rfl

theorem pure_def (a : α) : (pure a : EmitM α) = pureE a := rfl

theorem scInsertAll_append (a b : List (Nat × String)) (m : List Frame) :
    scInsertAll (a ++ b) m = scInsertAll a (scInsertAll b m) := by
  simp [scInsertAll, List.foldr_append]

theorem scInsertAll_cons_frame (a : List (Nat × String)) (f : Frame)
    (fs : List Frame) : scInsertAll a (f :: fs) = (a ++ f) :: fs := by
  induction a with
  | nil => rfl
  | cons x rest ih => simp [scInsertAll, List.foldr_cons] at ih ⊢; rw [ih]; rfl

theorem extendsTop_refl (m : List Frame) : extendsTop m m := ⟨[], rfl⟩

theorem extendsTop_trans {m m' m'' : List Frame} (h1 : extendsTop m m')
    (h2 : extendsTop m' m'') : extendsTop m m'' := by
  obtain ⟨a, ha⟩ := h1
  obtain ⟨b, hb⟩ := h2
  exact ⟨b ++ a, by rw [scInsertAll_append, ← ha, hb]⟩

theorem extendsTop_insert (m : List Frame) (k : Nat) (v : String) :
    extendsTop m (scInsert m k v) := ⟨[(k, v)], rfl⟩

theorem scLookup_isSome_insert (m : List Frame) (k : Nat) (v : String)
    (key : Nat) (hsome : (scLookup m key).isSome = true) :
    (scLookup (scInsert m k v) key).isSome = true := by
  cases m with
  | nil => simp [scLookup] at hsome
  | cons f fs =>
    by_cases hk : k = key
    · simp [scInsert, scLookup, scLookupFrame, hk]
    · simp [scInsert, scLookup, scLookupFrame, hk]
      simpa [scLookup] using hsome

theorem scLookup_isSome_of_extendsTop {m m' : List Frame} {key : Nat}
    (h : extendsTop m m') (hsome : (scLookup m key).isSome = true) :
    (scLookup m' key).isSome = true := by
  obtain ⟨a, ha⟩ := h
  subst ha
  induction a with
  | nil => exact hsome
  | cons x rest ih => exact scLookup_isSome_insert _ x.1 x.2 _ ih

theorem incTopK_zero (cs : List Nat) : incTopK 0 cs = cs := by
  cases cs <;> simp [incTopK]

theorem incTopK_add (k1 k2 : Nat) (cs : List Nat) :
    incTopK k1 (incTopK k2 cs) = incTopK (k2 + k1) cs := by
  cases cs <;> simp [incTopK] <;> omega

theorem bumpTop_refl (cs : List Nat) : bumpTop cs cs := ⟨0, (incTopK_zero cs).symm⟩

theorem bumpTop_trans {cs cs' cs'' : List Nat} (h1 : bumpTop cs cs')
    (h2 : bumpTop cs' cs'') : bumpTop cs cs'' := by
  obtain ⟨k1, hk1⟩ := h1
  obtain ⟨k2, hk2⟩ := h2
  exact ⟨k1 + k2, by rw [hk2, hk1, incTopK_add]⟩

theorem bumpTop_incTop (cs : List Nat) : bumpTop cs (stIncTop cs) :=
  ⟨1, by cases cs <;> simp [incTopK, stIncTop]⟩

theorem coreLe_refl (c : Core) : coreLe c c :=
  ⟨rfl, extendsTop_refl _, extendsTop_refl _, bumpTop_refl _, bumpTop_refl _⟩

theorem coreLe_trans {c c' c'' : Core} (h1 : coreLe c c') (h2 : coreLe c' c'') :
    coreLe c c'' :=
  ⟨h2.1.trans h1.1,
   extendsTop_trans h1.2.1 h2.2.1,
   extendsTop_trans h1.2.2.1 h2.2.2.1,
   bumpTop_trans h1.2.2.2.1 h2.2.2.2.1,
   bumpTop_trans h1.2.2.2.2 h2.2.2.2.2⟩

/-! ## EmOK: combinator lemmas -/

theorem emOK_pureE (a : α) : EmOK (pureE a) := by
  intro c
  refine ⟨.ok a, "", c, coreLe_refl c, fun o => ?_⟩
  simp [pureE]

theorem emOK_pure (a : α) : EmOK (pure a : EmitM α) := emOK_pureE a

theorem emOK_throwE (msg : String) : EmOK (throwE msg : EmitM α) := by
  intro c
  refine ⟨.error msg, "", c, coreLe_refl c, fun o => ?_⟩
  simp [throwE]

theorem emOK_bindE {m : EmitM α} {k : α → EmitM β} (hm : EmOK m)
    (hk : ∀ a, EmOK (k a)) : EmOK (bindE m k) := by
  intro c
  obtain ⟨r, δ, c', hle, hrun⟩ := hm c
  match r with
  | .error e =>
    exact ⟨.error e, δ, c', hle, fun o => by simp [bindE, hrun o]⟩
  | .ok a =>
    obtain ⟨r2, δ2, c'', hle2, hrun2⟩ := hk a c'
    refine ⟨r2, δ ++ δ2, c'', coreLe_trans hle hle2, fun o => ?_⟩
    simp [bindE, hrun o, hrun2 (o ++ δ), String.append_assoc]

theorem emOK_bind {m : EmitM α} {k : α → EmitM β} (hm : EmOK m)
    (hk : ∀ a, EmOK (k a)) : EmOK (m >>= k) := by
  rw [bind_def]; exact emOK_bindE hm hk

theorem emOK_write (t : String) : EmOK (write t) := by
  intro c
  refine ⟨.ok (), t, c, coreLe_refl c, fun o => ?_⟩
  simp [write]

theorem emOK_ite {p : Prop} [Decidable p] {m m' : EmitM α} (h1 : EmOK m)
    (h2 : EmOK m') : EmOK (if p then m else m') := by
  by_cases hp : p
  · simpa [hp] using h1
  · simpa [hp] using h2

theorem emOK_shouldDeclareVariablesAtTop : EmOK shouldDeclareVariablesAtTop := by
  intro c
  refine ⟨.ok c.declareVariablesAtTop, "", c, coreLe_refl c, fun o => ?_⟩
  simp [shouldDeclareVariablesAtTop]

theorem emOK_hasValueInScope (val : Value) : EmOK (hasValueInScope val) := by
  intro c
  refine ⟨.ok (scLookup c.valueMapper val.id).isSome, "", c, coreLe_refl c,
    fun o => ?_⟩
  simp [hasValueInScope]

theorem emOK_hasBlockLabel (block : Nat) : EmOK (hasBlockLabel block) := by
  intro c
  refine ⟨.ok (scLookup c.blockMapper block).isSome, "", c, coreLe_refl c,
    fun o => ?_⟩
  simp [hasBlockLabel]

theorem emOK_indent : EmOK indent := by
  intro c
  refine ⟨.ok (), "", { c with indentLevel := c.indentLevel + 1 },
    ⟨rfl, extendsTop_refl _, extendsTop_refl _, bumpTop_refl _, bumpTop_refl _⟩,
    fun o => ?_⟩
  simp [indent, modifyCore]

theorem emOK_unindent : EmOK unindent := by
  intro c
  refine ⟨.ok (), "", { c with indentLevel := c.indentLevel - 1 },
    ⟨rfl, extendsTop_refl _, extendsTop_refl _, bumpTop_refl _, bumpTop_refl _⟩,
    fun o => ?_⟩
  simp [unindent, modifyCore]

theorem emOK_getOrCreateName (val : Value) : EmOK (getOrCreateName val) := by
  intro c
  match hlit : val.literalText with
  | some t =>
    refine ⟨.ok t, "", c, coreLe_refl c, fun o => ?_⟩
    simp [getOrCreateName, hlit]
  | none =>
    match hlk : scLookup c.valueMapper val.id with
    | some n =>
      refine ⟨.ok n, "", c, coreLe_refl c, fun o => ?_⟩
      simp [getOrCreateName, hlit, hlk]
    | none =>
      refine ⟨.ok ("v" ++ Nat.repr (stTop c.valueInScopeCount + 1)), "",
        { c with
          valueMapper := scInsert c.valueMapper val.id
            ("v" ++ Nat.repr (stTop c.valueInScopeCount + 1))
          valueInScopeCount := stIncTop c.valueInScopeCount },
        ⟨rfl, extendsTop_insert _ _ _, extendsTop_refl _, bumpTop_incTop _,
         bumpTop_refl _⟩, fun o => ?_⟩
      simp [getOrCreateName, hlit, hlk]

theorem emOK_getOrCreateNameBlock (block : Nat) :
    EmOK (getOrCreateNameBlock block) := by
  intro c
  match hlk : scLookup c.blockMapper block with
  | some n =>
    refine ⟨.ok n, "", c, coreLe_refl c, fun o => ?_⟩
    simp [getOrCreateNameBlock, hlk]
  | none =>
    refine ⟨.ok ("label" ++ Nat.repr (stTop c.labelInScopeCount + 1)), "",
      { c with
        blockMapper := scInsert c.blockMapper block
          ("label" ++ Nat.repr (stTop c.labelInScopeCount + 1))
        labelInScopeCount := stIncTop c.labelInScopeCount },
      ⟨rfl, extendsTop_refl _, extendsTop_insert _ _ _, bumpTop_refl _,
       bumpTop_incTop _⟩, fun o => ?_⟩
    simp [getOrCreateNameBlock, hlk]

theorem scopeEnterC_flag (c : Core) :
    (scopeEnterC c).declareVariablesAtTop = c.declareVariablesAtTop := rfl

theorem emOK_withScope {m : EmitM α} (hm : EmOK m) : EmOK (withScope m) := by
  intro c
  obtain ⟨r, δ, c2, hle, hrun⟩ := hm (scopeEnterC c)
  obtain ⟨hflag, ⟨a, ha⟩, ⟨b, hb⟩, ⟨k1, hk1⟩, ⟨k2, hk2⟩⟩ := hle
  refine ⟨r, δ, { c2 with
    valueMapper := c2.valueMapper.tail
    blockMapper := c2.blockMapper.tail
    valueInScopeCount := c2.valueInScopeCount.tail
    labelInScopeCount := c2.labelInScopeCount.tail }, ?_, fun o => ?_⟩
  · constructor
    · exact hflag
    refine ⟨?_, ?_, ?_, ?_⟩
    · rw [ha]
      show extendsTop c.valueMapper
        (scInsertAll a ([] :: c.valueMapper)).tail
      rw [scInsertAll_cons_frame]
      exact extendsTop_refl _
    · rw [hb]
      show extendsTop c.blockMapper
        (scInsertAll b ([] :: c.blockMapper)).tail
      rw [scInsertAll_cons_frame]
      exact extendsTop_refl _
    · rw [hk1]
      show bumpTop c.valueInScopeCount
        (incTopK k1 (stTop c.valueInScopeCount :: c.valueInScopeCount)).tail
      simp [incTopK]
      exact bumpTop_refl _
    · rw [hk2]
      show bumpTop c.labelInScopeCount
        (incTopK k2 (stTop c.labelInScopeCount :: c.labelInScopeCount)).tail
      simp [incTopK]
      exact bumpTop_refl _
  · show (let s1 : St := { out := o, core := scopeEnterC c };
      let p := m s1; (p.1, { p.2 with core := scopeExitC p.2.core })) = _
    simp only [hrun o]
    rfl

/-! ## EmOK for the type and attribute printers -/

mutual
theorem emOK_emitType (t : MType) : EmOK (emitType t) := by
  cases t with
  | int width sign =>
    simp only [emitType]
    exact emOK_ite (emOK_write _)
      (emOK_ite (emOK_ite (emOK_write _) (emOK_write _)) (emOK_throwE _))
  | float width =>
    simp only [emitType]
    exact emOK_ite (emOK_write _) (emOK_ite (emOK_write _) (emOK_throwE _))
  | index =>
    simp only [emitType]; exact emOK_write _
  | tensor shape elem =>
    cases shape with
    | none => simp only [emitType]; exact emOK_throwE _
    | some dims =>
      simp only [emitType]
      refine emOK_ite ?_ (emOK_throwE _)
      exact emOK_bind (emOK_write _) (fun _ =>
        emOK_bind (emOK_emitType elem) (fun _ =>
          emOK_bind (emOK_write _) (fun _ => emOK_write _)))
  | tuple types =>
    simp only [emitType]; exact emOK_emitTupleType types
  | opaqueType v =>
    simp only [emitType]; exact emOK_write _
  | pointer pointee =>
    simp only [emitType]
    exact emOK_bind (emOK_emitType pointee) (fun _ => emOK_write _)
termination_by (sizeOf t, 0)
decreasing_by all_goals (simp_wf <;> omega)

theorem emOK_emitTypeListComma (ts : List MType) : EmOK (emitTypeListComma ts) := by
  match ts with
  | [] => simp only [emitTypeListComma]; exact emOK_pure ()
  | [t] => simp only [emitTypeListComma]; exact emOK_emitType t
  | t :: t2 :: rest =>
    simp only [emitTypeListComma]
    exact emOK_bind (emOK_emitType t) (fun _ =>
      emOK_bind (emOK_write _) (fun _ => emOK_emitTypeListComma (t2 :: rest)))
termination_by (sizeOf ts, 0)
decreasing_by all_goals (simp_wf <;> omega)

theorem emOK_emitTupleType (ts : List MType) : EmOK (emitTupleType ts) := by
  simp only [emitTupleType]
  exact emOK_bind (emOK_write _) (fun _ =>
    emOK_bind (emOK_emitTypeListComma ts) (fun _ => emOK_write _))
termination_by (sizeOf ts, 1)
decreasing_by all_goals (simp_wf <;> omega)
end

theorem emOK_emitTypes (ts : List MType) : EmOK (emitTypes ts) := by
  match ts with
  | [] => simp only [emitTypes]; exact emOK_write _
  | [t] => simp only [emitTypes]; exact emOK_emitType t
  | t :: t2 :: rest => simp only [emitTypes]; exact emOK_emitTupleType _

theorem emOK_emitAttribute (attr : Attr) : EmOK (emitAttribute attr) := by
  cases attr with
  | floatAttr v => simp only [emitAttribute]; exact emOK_write _
  | denseFPAttr vals => simp only [emitAttribute]; exact emOK_write _
  | intAttr ty v =>
    simp only [emitAttribute]
    cases ty <;> first
      | exact emOK_write _
      | exact emOK_throwE _
  | denseIntAttr elemTy vals =>
    simp only [emitAttribute]
    cases elemTy <;> first
      | exact emOK_write _
      | exact emOK_throwE _
  | opaqueAttr v => simp only [emitAttribute]; exact emOK_write _
  | symbolRefAttr root nested =>
    simp only [emitAttribute]
    exact emOK_ite (emOK_throwE _) (emOK_write _)
  | typeAttr t => simp only [emitAttribute]; exact emOK_emitType t
  | unitAttr => simp only [emitAttribute]; exact emOK_throwE _

/-! ## EmOK for the shared emission helpers -/

theorem emOK_interleaveTail {eachFn : α → EmitM Unit} {betweenFn : EmitM Unit}
    (he : ∀ x, EmOK (eachFn x)) (hb : EmOK betweenFn) :
    ∀ xs, EmOK (interleaveTail eachFn betweenFn xs)
  | [] => by simp only [interleaveTail]; exact emOK_pure ()
  | x :: rest => by
    simp only [interleaveTail]
    exact emOK_bind hb (fun _ =>
      emOK_bind (he x) (fun _ => emOK_interleaveTail he hb rest))

theorem emOK_interleaveWithError {eachFn : α → EmitM Unit}
    {betweenFn : EmitM Unit} (he : ∀ x, EmOK (eachFn x)) (hb : EmOK betweenFn)
    (xs : List α) : EmOK (interleaveWithError xs eachFn betweenFn) := by
  match xs with
  | [] => simp only [interleaveWithError]; exact emOK_pure ()
  | x :: rest =>
    simp only [interleaveWithError]
    exact emOK_bind (he x) (fun _ => emOK_interleaveTail he hb rest)

theorem emOK_interleaveCommaWithError {eachFn : α → EmitM Unit}
    (he : ∀ x, EmOK (eachFn x)) (xs : List α) :
    EmOK (interleaveCommaWithError xs eachFn) :=
  emOK_interleaveWithError he (emOK_write _) xs

theorem emOK_emitOperandName (result : Value) : EmOK (emitOperandName result) := by
  simp only [emitOperandName]
  exact emOK_bind (emOK_hasValueInScope _) (fun inScope =>
    emOK_ite (emOK_throwE _)
      (emOK_bind (emOK_getOrCreateName _) (fun n => emOK_write n)))

theorem emOK_emitOperands (operands : List Value) : EmOK (emitOperands operands) :=
  emOK_interleaveCommaWithError emOK_emitOperandName operands

theorem emOK_emitOperandsAndAttributes (operands : List Value)
    (attrs : List (String × Attr)) (exclude : List String) :
    EmOK (emitOperandsAndAttributes operands attrs exclude) := by
  simp only [emitOperandsAndAttributes]
  refine emOK_bind (emOK_emitOperands operands) (fun _ => ?_)
  refine emOK_ite ?_ ?_
  · refine emOK_bind (emOK_write _) (fun _ => ?_)
    refine emOK_interleaveCommaWithError (fun a => ?_) attrs
    exact emOK_ite (emOK_pure ())
      (emOK_bind (emOK_write _) (fun _ => emOK_emitAttribute a.2))
  · refine emOK_bind (emOK_pure _) (fun _ => ?_)
    refine emOK_interleaveCommaWithError (fun a => ?_) attrs
    exact emOK_ite (emOK_pure ())
      (emOK_bind (emOK_write _) (fun _ => emOK_emitAttribute a.2))

theorem emOK_emitVariableAssignment (result : Nat) :
    EmOK (emitVariableAssignment result) := by
  simp only [emitVariableAssignment]
  exact emOK_bind (emOK_hasValueInScope _) (fun inScope =>
    emOK_ite (emOK_throwE _)
      (emOK_bind (emOK_getOrCreateName _) (fun n => emOK_write _)))

theorem emOK_emitVariableDeclaration (result : Nat) (resultType : MType)
    (trailingSemicolon : Bool) :
    EmOK (emitVariableDeclaration result resultType trailingSemicolon) := by
  simp only [emitVariableDeclaration]
  exact emOK_bind (emOK_hasValueInScope _) (fun inScope =>
    emOK_ite (emOK_throwE _)
      (emOK_bind (emOK_emitType resultType) (fun _ =>
        emOK_bind (emOK_getOrCreateName _) (fun n =>
          emOK_bind (emOK_write _) (fun _ =>
            emOK_ite (emOK_write _) (emOK_pure ()))))))

theorem emOK_declareAllResults : ∀ rs, EmOK (declareAllResults rs)
  | [] => by simp only [declareAllResults]; exact emOK_pure ()
  | (r, t) :: rest => by
    simp only [declareAllResults]
    exact emOK_bind (emOK_emitVariableDeclaration r t true) (fun _ =>
      emOK_declareAllResults rest)

theorem emOK_emitAssignPrefixOf (results : List (Nat × MType)) :
    EmOK (emitAssignPrefixOf results) := by
  match results with
  | [] => simp only [emitAssignPrefixOf]; exact emOK_pure ()
  | [(r, t)] =>
    simp only [emitAssignPrefixOf]
    exact emOK_bind emOK_shouldDeclareVariablesAtTop (fun top =>
      emOK_ite (emOK_emitVariableAssignment r)
        (emOK_bind (emOK_emitVariableDeclaration r t false) (fun _ =>
          emOK_write _)))
  | (a :: b :: rest) =>
    simp only [emitAssignPrefixOf]
    refine emOK_bind emOK_shouldDeclareVariablesAtTop (fun top => ?_)
    refine emOK_ite ?_ ?_
    · refine emOK_bind (emOK_declareAllResults _) (fun _ => ?_)
      refine emOK_bind (emOK_write _) (fun _ => ?_)
      refine emOK_bind ?_ (fun _ => emOK_write _)
      refine emOK_interleaveCommaWithError (fun r => ?_) _
      exact emOK_bind (emOK_getOrCreateName _) (fun n => emOK_write n)
    · refine emOK_bind (emOK_pure _) (fun _ => ?_)
      refine emOK_bind (emOK_write _) (fun _ => ?_)
      refine emOK_bind ?_ (fun _ => emOK_write _)
      refine emOK_interleaveCommaWithError (fun r => ?_) _
      exact emOK_bind (emOK_getOrCreateName _) (fun n => emOK_write n)

theorem emOK_emitLabel (block : Nat) : EmOK (emitLabel block) := by
  simp only [emitLabel]
  exact emOK_bind (emOK_hasBlockLabel _) (fun has =>
    emOK_ite (emOK_throwE _)
      (emOK_bind (emOK_getOrCreateNameBlock _) (fun n => emOK_write _)))

/-! ## EmOK for the region-free printers -/

theorem emOK_printConstantOp (result : Nat) (resultType : MType) (value : Attr) :
    EmOK (printConstantOp result resultType value) := by
  simp only [printConstantOp]
  refine emOK_bind emOK_shouldDeclareVariablesAtTop (fun top => ?_)
  refine emOK_ite ?_ ?_
  · exact emOK_ite (emOK_pure ())
      (emOK_bind (emOK_emitVariableAssignment _) (fun _ => emOK_emitAttribute _))
  · exact emOK_ite (emOK_emitVariableDeclaration _ _ _)
      (emOK_bind (emOK_emitAssignPrefixOf _) (fun _ => emOK_emitAttribute _))

theorem emOK_printAssignOp (varResult : Nat) (value : Value) :
    EmOK (printAssignOp varResult value) := by
  simp only [printAssignOp]
  exact emOK_bind (emOK_emitVariableAssignment _) (fun _ =>
    emOK_bind (emOK_getOrCreateName _) (fun n => emOK_write _))

theorem emOK_printBinaryOperation (results : List (Nat × MType))
    (lhs rhs : Value) (binaryOperator : String) :
    EmOK (printBinaryOperation results lhs rhs binaryOperator) := by
  simp only [printBinaryOperation]
  exact emOK_bind (emOK_emitAssignPrefixOf _) (fun _ =>
    emOK_bind (emOK_getOrCreateName _) (fun a =>
      emOK_bind (emOK_write _) (fun _ =>
        emOK_bind (emOK_write _) (fun _ =>
          emOK_bind (emOK_getOrCreateName _) (fun b => emOK_write _)))))

theorem emOK_printCallOpFunc (callee : String) (results : List (Nat × MType))
    (operands : List Value) : EmOK (printCallOpFunc callee results operands) := by
  simp only [printCallOpFunc]
  exact emOK_bind (emOK_emitAssignPrefixOf _) (fun _ =>
    emOK_bind (emOK_write _) (fun _ =>
      emOK_bind (emOK_emitOperands _) (fun _ => emOK_write _)))

theorem emOK_emitCallArg (operands : List Value) (attr : Attr) :
    EmOK (emitCallArg operands attr) := by
  cases attr
  case intAttr ty v =>
    cases ty
    case index =>
      simp only [emitCallArg]
      refine emOK_ite (emOK_throwE _) ?_
      exact emOK_bind (emOK_hasValueInScope _) (fun inScope =>
        emOK_ite (emOK_throwE _)
          (emOK_bind (emOK_getOrCreateName _) (fun n => emOK_write _)))
    all_goals (simp only [emitCallArg]; exact emOK_emitAttribute _)
  all_goals (simp only [emitCallArg]; exact emOK_emitAttribute _)

theorem emOK_printCallOp (callee : String) (results : List (Nat × MType))
    (operands : List Value) (templateArgs : Option (List Attr))
    (args : Option (List Attr)) :
    EmOK (printCallOp callee results operands templateArgs args) := by
  simp only [printCallOp]
  refine emOK_bind (emOK_emitAssignPrefixOf _) (fun _ => ?_)
  refine emOK_bind (emOK_write _) (fun _ => ?_)
  cases templateArgs with
  | some tArgs =>
    refine emOK_bind (emOK_write _) (fun _ => ?_)
    refine emOK_bind
      (emOK_interleaveCommaWithError (emOK_emitCallArg operands) tArgs)
      (fun _ => ?_)
    refine emOK_bind (emOK_write _) (fun _ => ?_)
    refine emOK_bind (emOK_write _) (fun _ => ?_)
    cases args with
    | some argList =>
      exact emOK_bind
        (emOK_interleaveCommaWithError (emOK_emitCallArg operands) argList)
        (fun _ => emOK_write _)
    | none => exact emOK_bind (emOK_emitOperands _) (fun _ => emOK_write _)
  | none =>
    refine emOK_bind (emOK_pure _) (fun _ => ?_)
    refine emOK_bind (emOK_write _) (fun _ => ?_)
    cases args with
    | some argList =>
      exact emOK_bind
        (emOK_interleaveCommaWithError (emOK_emitCallArg operands) argList)
        (fun _ => emOK_write _)
    | none => exact emOK_bind (emOK_emitOperands _) (fun _ => emOK_write _)

theorem emOK_printApplyOp (applicableOperator : String) (result : Nat)
    (resultType : MType) (operand : Value) :
    EmOK (printApplyOp applicableOperator result resultType operand) := by
  simp only [printApplyOp]
  exact emOK_bind (emOK_emitAssignPrefixOf _) (fun _ =>
    emOK_bind (emOK_write _) (fun _ =>
      emOK_bind (emOK_getOrCreateName _) (fun n => emOK_write _)))

theorem emOK_printCastOp (result : Nat) (resultType : MType) (operand : Value) :
    EmOK (printCastOp result resultType operand) := by
  simp only [printCastOp]
  exact emOK_bind (emOK_emitAssignPrefixOf _) (fun _ =>
    emOK_bind (emOK_write _) (fun _ =>
      emOK_bind (emOK_emitType _) (fun _ =>
        emOK_bind (emOK_write _) (fun _ =>
          emOK_bind (emOK_getOrCreateName _) (fun n => emOK_write _)))))

theorem emOK_printIncludeOp (isStandardInclude : Bool) (includeFile : String) :
    EmOK (printIncludeOp isStandardInclude includeFile) := by
  simp only [printIncludeOp]
  exact emOK_bind (emOK_write _) (fun _ =>
    emOK_ite (emOK_write _) (emOK_write _))

theorem emOK_printReturnOp (operands : List Value)
    (attrs : List (String × Attr)) : EmOK (printReturnOp operands attrs) := by
  match operands with
  | [] =>
    simp only [printReturnOp]
    exact emOK_bind (emOK_write _) (fun _ => emOK_pure ())
  | [operand] =>
    simp only [printReturnOp]
    refine emOK_bind (emOK_write _) (fun _ => ?_)
    exact emOK_bind (emOK_getOrCreateName _) (fun n =>
      emOK_bind (emOK_write _) (fun _ =>
        emOK_bind (emOK_hasValueInScope _) (fun inScope =>
          emOK_ite (emOK_pure ()) (emOK_throwE _))))
  | o1 :: o2 :: rest =>
    simp only [printReturnOp]
    refine emOK_bind (emOK_write _) (fun _ => ?_)
    exact emOK_bind (emOK_write _) (fun _ =>
      emOK_bind (emOK_emitOperandsAndAttributes _ _ _) (fun _ => emOK_write _))

theorem emOK_branchAssignments :
    ∀ (operands : List Value) (args : List (Nat × MType)),
      EmOK (branchAssignments operands args)
  | operand :: rest, (argId, t) :: args => by
    simp only [branchAssignments]
    exact emOK_bind (emOK_getOrCreateName _) (fun a =>
      emOK_bind (emOK_write _) (fun _ =>
        emOK_bind (emOK_getOrCreateName _) (fun o =>
          emOK_bind (emOK_write _) (fun _ =>
            emOK_branchAssignments rest args))))
  | [], _ => by simp only [branchAssignments]; exact emOK_pure ()
  | _ :: _, [] => by simp only [branchAssignments]; exact emOK_pure ()

theorem emOK_printBranchOp (ctx : List BBlock) (successor : Nat)
    (operands : List Value) : EmOK (printBranchOp ctx successor operands) := by
  simp only [printBranchOp]
  exact emOK_bind (emOK_branchAssignments _ _) (fun _ =>
    emOK_bind (emOK_write _) (fun _ =>
      emOK_bind (emOK_hasBlockLabel _) (fun has =>
        emOK_ite (emOK_throwE _)
          (emOK_bind (emOK_getOrCreateNameBlock _) (fun n => emOK_write _)))))

theorem emOK_printCondBranchOp (ctx : List BBlock) (condition : Value)
    (trueDest : Nat) (trueOperands : List Value) (falseDest : Nat)
    (falseOperands : List Value) :
    EmOK (printCondBranchOp ctx condition trueDest trueOperands falseDest
      falseOperands) := by
  simp only [printCondBranchOp]
  refine emOK_bind (emOK_getOrCreateName _) (fun c => ?_)
  refine emOK_bind (emOK_write _) (fun _ => ?_)
  refine emOK_bind emOK_indent (fun _ => ?_)
  refine emOK_bind (emOK_branchAssignments _ _) (fun _ => ?_)
  refine emOK_bind (emOK_write _) (fun _ => ?_)
  refine emOK_bind (emOK_hasBlockLabel _) (fun hasT => ?_)
  refine emOK_ite (emOK_throwE _) ?_
  refine emOK_bind (emOK_getOrCreateNameBlock _) (fun nT => ?_)
  refine emOK_bind (emOK_write _) (fun _ => ?_)
  refine emOK_bind emOK_unindent (fun _ => ?_)
  refine emOK_bind (emOK_write _) (fun _ => ?_)
  refine emOK_bind emOK_indent (fun _ => ?_)
  refine emOK_bind (emOK_branchAssignments _ _) (fun _ => ?_)
  refine emOK_bind (emOK_write _) (fun _ => ?_)
  refine emOK_bind (emOK_hasBlockLabel _) (fun hasF => ?_)
  refine emOK_ite (emOK_throwE _) ?_
  refine emOK_bind (emOK_getOrCreateNameBlock _) (fun nF => ?_)
  refine emOK_bind (emOK_write _) (fun _ => ?_)
  exact emOK_bind emOK_unindent (fun _ => emOK_write _)

/-! ## EmOK for the function-emission helpers -/

theorem emOK_declareOpResults : ∀ rs, EmOK (declareOpResults rs)
  | [] => by simp only [declareOpResults]; exact emOK_pure ()
  | (r, t) :: rest => by
    intro c
    obtain ⟨res, δ, c', hle, hrun⟩ := emOK_emitVariableDeclaration r t true c
    match res with
    | .ok a =>
      obtain ⟨res2, δ2, c'', hle2, hrun2⟩ := emOK_declareOpResults rest c'
      refine ⟨res2, δ ++ δ2, c'', coreLe_trans hle hle2, fun o => ?_⟩
      simp only [declareOpResults, hrun o, hrun2 (o ++ δ), String.append_assoc]
    | .error e =>
      refine ⟨.error "unable to declare result variable for op", δ, c', hle,
        fun o => ?_⟩
      simp only [declareOpResults, hrun o]

mutual
theorem emOK_walkDeclareOp (op : Op) : EmOK (walkDeclareOp op) := by
  cases op with
  | literalOp r v => simp only [walkDeclareOp]; exact emOK_pure ()
  | moduleOp body => simp only [walkDeclareOp]; exact emOK_walkDeclareList body
  | funcOp name rts blocks =>
    simp only [walkDeclareOp]; exact emOK_walkDeclareBlocks blocks
  | forOp lb ub st iv ivt body =>
    simp only [walkDeclareOp]; exact emOK_walkDeclareList body
  | ifOp cond thenR elseR =>
    simp only [walkDeclareOp]
    exact emOK_bind (emOK_walkDeclareList thenR) (fun _ =>
      emOK_walkDeclareList elseR)
  | returnOp a b => simp only [walkDeclareOp]; exact emOK_declareOpResults _
  | constantOp a b c => simp only [walkDeclareOp]; exact emOK_declareOpResults _
  | variableOp a b c => simp only [walkDeclareOp]; exact emOK_declareOpResults _
  | arithConstantOp a b c =>
    simp only [walkDeclareOp]; exact emOK_declareOpResults _
  | funcConstantOp a b c =>
    simp only [walkDeclareOp]; exact emOK_declareOpResults _
  | assignOp a b => simp only [walkDeclareOp]; exact emOK_declareOpResults _
  | binaryOp a b c d => simp only [walkDeclareOp]; exact emOK_declareOpResults _
  | cmpOp a b c d => simp only [walkDeclareOp]; exact emOK_declareOpResults _
  | branchOp a b => simp only [walkDeclareOp]; exact emOK_declareOpResults _
  | condBranchOp a b c d e =>
    simp only [walkDeclareOp]; exact emOK_declareOpResults _
  | callOpFunc a b c => simp only [walkDeclareOp]; exact emOK_declareOpResults _
  | callOp a b c d e => simp only [walkDeclareOp]; exact emOK_declareOpResults _
  | applyOp a b c d => simp only [walkDeclareOp]; exact emOK_declareOpResults _
  | castOp a b c => simp only [walkDeclareOp]; exact emOK_declareOpResults _
  | includeOp a b => simp only [walkDeclareOp]; exact emOK_declareOpResults _
  | yieldOp => simp only [walkDeclareOp]; exact emOK_declareOpResults _
  | unknownOp a => simp only [walkDeclareOp]; exact emOK_declareOpResults _
termination_by (sizeOf op, 0)
decreasing_by all_goals (simp_wf <;> omega)

theorem emOK_walkDeclareList (ops : List Op) : EmOK (walkDeclareList ops) := by
  match ops with
  | [] => simp only [walkDeclareList]; exact emOK_pure ()
  | op :: rest =>
    simp only [walkDeclareList]
    exact emOK_bind (emOK_walkDeclareOp op) (fun _ => emOK_walkDeclareList rest)
termination_by (sizeOf ops, 0)
decreasing_by all_goals (simp_wf <;> omega)

theorem emOK_walkDeclareBlocks (blocks : List BBlock) :
    EmOK (walkDeclareBlocks blocks) := by
  match blocks with
  | [] => simp only [walkDeclareBlocks]; exact emOK_pure ()
  | .mk args ops :: rest =>
    simp only [walkDeclareBlocks]
    exact emOK_bind (emOK_walkDeclareList ops) (fun _ =>
      emOK_walkDeclareBlocks rest)
termination_by (sizeOf blocks, 0)
decreasing_by all_goals (simp_wf <;> omega)
end

theorem emOK_createBlockLabels : ∀ count idx, EmOK (createBlockLabels count idx)
  | 0, _ => by simp only [createBlockLabels]; exact emOK_pure ()
  | n + 1, idx => by
    simp only [createBlockLabels]
    exact emOK_bind (emOK_getOrCreateNameBlock idx) (fun _ =>
      emOK_createBlockLabels n (idx + 1))

theorem emOK_declareArgList : ∀ args, EmOK (declareArgList args)
  | [] => by simp only [declareArgList]; exact emOK_pure ()
  | (argId, argTy) :: rest => by
    simp only [declareArgList]
    exact emOK_bind (emOK_hasValueInScope _) (fun inScope =>
      emOK_ite (emOK_throwE _)
        (emOK_bind (emOK_emitType _) (fun _ =>
          emOK_bind (emOK_getOrCreateName _) (fun n =>
            emOK_bind (emOK_write _) (fun _ => emOK_declareArgList rest)))))

theorem emOK_declareBlockArgs : ∀ blocks, EmOK (declareBlockArgs blocks)
  | [] => by simp only [declareBlockArgs]; exact emOK_pure ()
  | b :: rest => by
    simp only [declareBlockArgs]
    exact emOK_bind (emOK_declareArgList b.args) (fun _ =>
      emOK_declareBlockArgs rest)

theorem emOK_emitFuncParameters (args : List (Nat × MType)) :
    EmOK (emitFuncParameters args) := by
  refine emOK_interleaveCommaWithError (fun arg => ?_) args
  exact emOK_bind (emOK_emitType _) (fun _ =>
    emOK_bind (emOK_getOrCreateName _) (fun n => emOK_write _))

/-! ## EmOK for the dispatcher and the region recursion -/

mutual
theorem emOK_emitOperation (ctx : List BBlock) (op : Op)
    (trailingSemicolon : Bool) : EmOK (emitOperation ctx op trailingSemicolon) := by
  cases op with
  | moduleOp body =>
    simp only [emitOperation]
    exact emOK_bind (emOK_withScope (emOK_printModuleOps body))
      (fun _ => emOK_write _)
  | funcOp name resultTypes blocks =>
    simp only [emitOperation]
    exact emOK_bind (emOK_printFuncOp name resultTypes blocks)
      (fun _ => emOK_write _)
  | returnOp operands attrs =>
    simp only [emitOperation]
    exact emOK_bind (emOK_printReturnOp _ _) (fun _ => emOK_write _)
  | constantOp r t v =>
    simp only [emitOperation]
    exact emOK_bind (emOK_printConstantOp _ _ _) (fun _ => emOK_write _)
  | variableOp r t v =>
    simp only [emitOperation]
    exact emOK_bind (emOK_printConstantOp _ _ _) (fun _ => emOK_write _)
  | arithConstantOp r t v =>
    simp only [emitOperation]
    exact emOK_bind (emOK_printConstantOp _ _ _) (fun _ => emOK_write _)
  | funcConstantOp r t v =>
    simp only [emitOperation]
    exact emOK_bind (emOK_printConstantOp _ _ _) (fun _ => emOK_write _)
  | literalOp r v =>
    simp only [emitOperation]
    exact emOK_bind (emOK_pure _) (fun _ => emOK_pure _)
  | assignOp a b =>
    simp only [emitOperation]
    exact emOK_bind (emOK_printAssignOp _ _) (fun _ => emOK_write _)
  | binaryOp kind rs lhs rhs =>
    simp only [emitOperation]
    exact emOK_bind (emOK_printBinaryOperation _ _ _ _) (fun _ => emOK_write _)
  | cmpOp p rs lhs rhs =>
    simp only [emitOperation]
    exact emOK_bind (emOK_printBinaryOperation _ _ _ _) (fun _ => emOK_write _)
  | branchOp successor operands =>
    simp only [emitOperation]
    exact emOK_bind (emOK_printBranchOp _ _ _) (fun _ => emOK_write _)
  | condBranchOp c t tOps f fOps =>
    simp only [emitOperation]
    exact emOK_bind (emOK_printCondBranchOp _ _ _ _ _ _) (fun _ => emOK_write _)
  | callOpFunc callee rs operands =>
    simp only [emitOperation]
    exact emOK_bind (emOK_printCallOpFunc _ _ _) (fun _ => emOK_write _)
  | callOp callee rs operands tArgs args =>
    simp only [emitOperation]
    exact emOK_bind (emOK_printCallOp _ _ _ _ _) (fun _ => emOK_write _)
  | applyOp a r t operand =>
    simp only [emitOperation]
    exact emOK_bind (emOK_printApplyOp _ _ _ _) (fun _ => emOK_write _)
  | castOp r t operand =>
    simp only [emitOperation]
    exact emOK_bind (emOK_printCastOp _ _ _) (fun _ => emOK_write _)
  | includeOp std file =>
    simp only [emitOperation]
    exact emOK_bind (emOK_printIncludeOp _ _) (fun _ => emOK_write _)
  | forOp lb ub st iv ivt body =>
    simp only [emitOperation]
    exact emOK_bind (emOK_printForOp ctx lb ub st iv ivt body)
      (fun _ => emOK_write _)
  | ifOp c thenR elseR =>
    simp only [emitOperation]
    exact emOK_bind (emOK_printIfOp ctx c thenR elseR) (fun _ => emOK_write _)
  | yieldOp =>
    simp only [emitOperation]
    exact emOK_bind (emOK_throwE _) (fun _ => emOK_write _)
  | unknownOp name =>
    simp only [emitOperation]
    exact emOK_bind (emOK_throwE _) (fun _ => emOK_write _)
termination_by (sizeOf op, 3)
decreasing_by all_goals (simp_wf <;> omega)

theorem emOK_printModuleOps (ops : List Op) : EmOK (printModuleOps ops) := by
  match ops with
  | [] => simp only [printModuleOps]; exact emOK_pure ()
  | op :: rest =>
    simp only [printModuleOps]
    exact emOK_bind (emOK_emitOperation [] op false) (fun _ =>
      emOK_printModuleOps rest)
termination_by (sizeOf ops, 0)
decreasing_by all_goals (simp_wf <;> omega)

theorem emOK_printFuncOp (name : String) (resultTypes : List MType)
    (blocks : List BBlock) : EmOK (printFuncOp name resultTypes blocks) := by
  simp only [printFuncOp]
  refine emOK_bind emOK_shouldDeclareVariablesAtTop (fun top => ?_)
  exact emOK_ite (emOK_throwE _)
    (emOK_withScope (emOK_printFuncOpBody name resultTypes blocks))
termination_by (sizeOf blocks, 2)
decreasing_by all_goals (simp_wf <;> omega)

theorem emOK_printFuncOpBody (name : String) (resultTypes : List MType)
    (blocks : List BBlock) : EmOK (printFuncOpBody name resultTypes blocks) := by
  simp only [printFuncOpBody]
  refine emOK_bind (emOK_emitTypes _) (fun _ => ?_)
  refine emOK_bind (emOK_write _) (fun _ => ?_)
  refine emOK_bind (emOK_write _) (fun _ => ?_)
  refine emOK_bind (emOK_emitFuncParameters _) (fun _ => ?_)
  refine emOK_bind (emOK_write _) (fun _ => ?_)
  refine emOK_bind emOK_indent (fun _ => ?_)
  refine emOK_bind emOK_shouldDeclareVariablesAtTop (fun top => ?_)
  refine emOK_ite ?_ ?_
  · refine emOK_bind (emOK_walkDeclareBlocks blocks) (fun _ => ?_)
    refine emOK_bind (emOK_createBlockLabels _ _) (fun _ => ?_)
    refine emOK_bind (emOK_declareBlockArgs _) (fun _ => ?_)
    refine emOK_bind (emOK_emitFuncBlocks blocks blocks 0) (fun _ => ?_)
    exact emOK_bind emOK_unindent (fun _ => emOK_write _)
  · refine emOK_bind (emOK_pure _) (fun _ => ?_)
    refine emOK_bind (emOK_createBlockLabels _ _) (fun _ => ?_)
    refine emOK_bind (emOK_declareBlockArgs _) (fun _ => ?_)
    refine emOK_bind (emOK_emitFuncBlocks blocks blocks 0) (fun _ => ?_)
    exact emOK_bind emOK_unindent (fun _ => emOK_write _)
termination_by (sizeOf blocks, 1)
decreasing_by all_goals (simp_wf <;> omega)

theorem emOK_emitFuncBlocks (ctx : List BBlock) (blocks : List BBlock)
    (idx : Nat) : EmOK (emitFuncBlocks ctx blocks idx) := by
  match blocks with
  | [] => simp only [emitFuncBlocks]; exact emOK_pure ()
  | .mk args ops :: rest =>
    simp only [emitFuncBlocks]
    refine emOK_ite ?_ ?_
    · refine emOK_bind (emOK_emitLabel idx) (fun _ => ?_)
      refine emOK_bind (emOK_printBlockOps ctx ops) (fun _ => ?_)
      exact emOK_emitFuncBlocks ctx rest (idx + 1)
    · refine emOK_bind (emOK_pure _) (fun _ => ?_)
      refine emOK_bind (emOK_printBlockOps ctx ops) (fun _ => ?_)
      exact emOK_emitFuncBlocks ctx rest (idx + 1)
termination_by (sizeOf blocks, 0)
decreasing_by all_goals (simp_wf <;> omega)

theorem emOK_printBlockOps (ctx : List BBlock) (ops : List Op) :
    EmOK (printBlockOps ctx ops) := by
  match ops with
  | [] => simp only [printBlockOps]; exact emOK_pure ()
  | op :: rest =>
    simp only [printBlockOps]
    exact emOK_bind (emOK_emitOperation ctx op (trailingSemicolonFor op))
      (fun _ => emOK_printBlockOps ctx rest)
termination_by (sizeOf ops, 0)
decreasing_by all_goals (simp_wf <;> omega)

theorem emOK_printForOp (ctx : List BBlock) (lowerBound upperBound step : Value)
    (inductionVar : Nat) (inductionVarType : MType) (body : List Op) :
    EmOK (printForOp ctx lowerBound upperBound step inductionVar
      inductionVarType body) := by
  simp only [printForOp]
  refine emOK_bind (emOK_write _) (fun _ => ?_)
  refine emOK_bind (emOK_emitType _) (fun _ => ?_)
  refine emOK_bind (emOK_write _) (fun _ => ?_)
  refine emOK_bind (emOK_getOrCreateName _) (fun iv => ?_)
  refine emOK_bind (emOK_write _) (fun _ => ?_)
  refine emOK_bind (emOK_write _) (fun _ => ?_)
  refine emOK_bind (emOK_getOrCreateName _) (fun lb => ?_)
  refine emOK_bind (emOK_write _) (fun _ => ?_)
  refine emOK_bind (emOK_write _) (fun _ => ?_)
  refine emOK_bind (emOK_getOrCreateName _) (fun iv2 => ?_)
  refine emOK_bind (emOK_write _) (fun _ => ?_)
  refine emOK_bind (emOK_write _) (fun _ => ?_)
  refine emOK_bind (emOK_getOrCreateName _) (fun ub => ?_)
  refine emOK_bind (emOK_write _) (fun _ => ?_)
  refine emOK_bind (emOK_write _) (fun _ => ?_)
  refine emOK_bind (emOK_getOrCreateName _) (fun iv3 => ?_)
  refine emOK_bind (emOK_write _) (fun _ => ?_)
  refine emOK_bind (emOK_write _) (fun _ => ?_)
  refine emOK_bind (emOK_getOrCreateName _) (fun st => ?_)
  refine emOK_bind (emOK_write _) (fun _ => ?_)
  refine emOK_bind (emOK_write _) (fun _ => ?_)
  refine emOK_bind emOK_indent (fun _ => ?_)
  refine emOK_bind (emOK_emitAllButLast ctx body) (fun _ => ?_)
  exact emOK_bind emOK_unindent (fun _ => emOK_write _)
termination_by (sizeOf body, 1)
decreasing_by all_goals (simp_wf <;> omega)

theorem emOK_printIfOp (ctx : List BBlock) (condition : Value)
    (thenRegion : List Op) (elseRegion : List Op) :
    EmOK (printIfOp ctx condition thenRegion elseRegion) := by
  simp only [printIfOp]
  refine emOK_bind (emOK_write _) (fun _ => ?_)
  refine emOK_bind (emOK_emitOperands _) (fun _ => ?_)
  refine emOK_bind (emOK_write _) (fun _ => ?_)
  refine emOK_bind emOK_indent (fun _ => ?_)
  refine emOK_bind (emOK_emitAllButLast ctx thenRegion) (fun _ => ?_)
  refine emOK_bind emOK_unindent (fun _ => ?_)
  refine emOK_bind (emOK_write _) (fun _ => ?_)
  refine emOK_ite ?_ (emOK_pure _)
  refine emOK_bind (emOK_write _) (fun _ => ?_)
  refine emOK_bind emOK_indent (fun _ => ?_)
  refine emOK_bind (emOK_emitAllButLast ctx elseRegion) (fun _ => ?_)
  exact emOK_bind emOK_unindent (fun _ => emOK_write _)
termination_by (sizeOf thenRegion + sizeOf elseRegion, 1)
decreasing_by all_goals (simp_wf <;> omega)

theorem emOK_emitAllButLast (ctx : List BBlock) (ops : List Op) :
    EmOK (emitAllButLast ctx ops) := by
  match ops with
  | [] => simp only [emitAllButLast]; exact emOK_pure ()
  | [op] => simp only [emitAllButLast]; exact emOK_pure ()
  | op :: op2 :: rest =>
    simp only [emitAllButLast]
    exact emOK_bind (emOK_emitOperation ctx op true) (fun _ =>
      emOK_emitAllButLast ctx (op2 :: rest))
termination_by (sizeOf ops, 0)
decreasing_by all_goals (simp_wf <;> omega)
end

/-! ## Concrete evaluation support

The region-recursive emitters are compiled by well-founded recursion, so
closed instances do not reduce definitionally; registering the equations
with simp lets concrete runs evaluate by rewriting. -/

attribute [simp] pureE bindE write throwE getCore modifyCore
  shouldDeclareVariablesAtTop indent unindent scopeEnterC scopeExitC withScope
  scLookupFrame scLookup scInsert stTop stIncTop getOrCreateName
  getOrCreateNameBlock hasValueInScope hasBlockLabel shouldMapToUnsigned
  printIntStr printFloatStr emitAttribute interleaveTail interleaveWithError
  interleaveCommaWithError emitOperandName emitOperands
  emitOperandsAndAttributes emitVariableAssignment emitVariableDeclaration
  declareAllResults emitAssignPrefixOf emitLabel isEmptyOpaqueAttr
  printConstantOp printAssignOp printBinaryOperation cmpOperatorStr
  printCallOpFunc APIntVal.toSigned emitCallArg printCallOp printApplyOp
  printCastOp printIncludeOp printReturnOp branchAssignments successorArgs
  printBranchOp printCondBranchOp opResults declareOpResults walkDeclareOp
  walkDeclareList walkDeclareBlocks createBlockLabels declareArgList
  declareBlockArgs opTargetsBlock hasNoPredecessorsB trailingSemicolonFor
  funcArguments emitFuncParameters emitType emitTypeListComma emitTupleType
  emitTypes emitOperation printModuleOps printFuncOp printFuncOpBody
  emitFuncBlocks emitFuncBlocksSpec printBlockOps printForOp printIfOp
  emitAllButLast
  CppEmitterInit translateToCpp getNamePure getNameCore commaNames
  operandNamesStr strConcat BinKind.str BBlock.args BBlock.ops bind_def pure_def

theorem empty_string_isEmpty : "".isEmpty = true := rfl

attribute [simp] empty_string_isEmpty

/-! ## Claim theorems -/

/-- C6: the Type Printer maps width-1 integers to the bool keyword; widths
8, 16, 32 and 64 to uint(W)_t exactly when the signedness is the explicit
Unsigned marking and to int(W)_t for Signed and Signless; every other
integer width fails with a diagnostic and writes nothing. -/
theorem C6_emitType_integer (width : Nat) (sign : Signedness) (s : St) :
    emitType (.int width sign) s =
      if width = 1 then
        (Except.ok (), { s with out := s.out ++ "bool" })
      else if width = 8 ∨ width = 16 ∨ width = 32 ∨ width = 64 then
        (Except.ok (), { s with out := s.out ++
          ((if sign = .Unsigned then "uint" else "int") ++ Nat.repr width ++ "_t") })
      else
        (Except.error "cannot emit integer type", s) := by
  by_cases h1 : width = 1
  · simp [emitType, h1, write]
  · by_cases h2 : width = 8 ∨ width = 16 ∨ width = 32 ∨ width = 64
    · cases sign <;> simp [emitType, h1, h2, write, shouldMapToUnsigned]
    · simp [emitType, h1, h2, throwE]

/-- C7: a finite float literal prints its full-precision digit string behind
a float or double cast exactly for single and double semantics; a NaN prints
exactly the NAN macro token; an infinity prints the INFINITY macro token with
a minus sign exactly when negative; neither special case contains a digit;
and emitAttribute prints a FloatAttr exactly as printFloat renders it. -/
theorem C7_float_literal_printing :
    (∀ (sem : FloatSem) (digits : String),
      printFloatStr (.finite sem digits) =
        (match sem with
         | .IEEEsingle => "(float)"
         | .IEEEdouble => "(double)"
         | .otherSem => "") ++ digits) ∧
    (∀ neg, printFloatStr (.nan neg) = "NAN") ∧
    (∀ neg, printFloatStr (.inf neg) = (if neg then "-" else "") ++ "INFINITY") ∧
    (∀ neg, (printFloatStr (.nan neg)).data.all (fun ch => !ch.isDigit) = true ∧
      (printFloatStr (.inf neg)).data.all (fun ch => !ch.isDigit) = true) ∧
    (∀ (v : FloatVal) (s : St),
      emitAttribute (.floatAttr v) s =
        (Except.ok (), { s with out := s.out ++ printFloatStr v })) := by
  refine ⟨fun sem digits => rfl, fun neg => rfl, fun neg => rfl,
    fun neg => ⟨?_, ?_⟩, fun v s => rfl⟩
  · cases neg <;> decide
  · cases neg <;> decide

/-- C8: emitTypes prints void for an empty list and the sole spelling for a
singleton, falling back to the tuple printer only for two or more types,
while emitTupleType opens the std::tuple wrapper for every arity, zero and
one included. -/
theorem C8_emitTypes_vs_emitTupleType :
    (∀ s : St, emitTypes [] s = (Except.ok (), { s with out := s.out ++ "void" })) ∧
    (∀ t : MType, emitTypes [t] = emitType t) ∧
    (∀ (t1 t2 : MType) (ts : List MType),
      emitTypes (t1 :: t2 :: ts) = emitTupleType (t1 :: t2 :: ts)) ∧
    (∀ (ts : List MType) (s : St),
      ∃ tail : String,
        ((emitTupleType ts s).2).out = s.out ++ "std::tuple<" ++ tail) := by
  refine ⟨fun s => rfl, fun t => rfl, fun t1 t2 ts => rfl, fun ts s => ?_⟩
  obtain ⟨o, c⟩ := s
  obtain ⟨r, δ, c', hle, hrun⟩ :=
    (emOK_bind (emOK_emitTypeListComma ts) (fun _ => emOK_write ">")) c
  refine ⟨δ, ?_⟩
  rw [emitTupleType]
  rw [bind_def]
  simp only [bindE, write]
  rw [hrun (o ++ "std::tuple<")]

/-! ## Evaluation lemmas for bound or literal operands -/

theorem scLookup_insert_self (m : List Frame) (k : Nat) (v : String) :
    scLookup (scInsert m k v) k = some v := by
  cases m <;> simp [scInsert, scLookup, scLookupFrame]

theorem bindE_ok {α β : Type} {m : EmitM α} {k : α → EmitM β} {s s' : St}
    {a : α} (h : m s = (Except.ok a, s')) : bindE m k s = k a s' := by
  simp only [bindE, h]

theorem bindE_assoc {α β γ : Type} (m : EmitM α) (k1 : α → EmitM β)
    (k2 : β → EmitM γ) (s : St) :
    bindE (bindE m k1) k2 s = bindE m (fun a => bindE (k1 a) k2) s := by
  cases hms : m s with
  | mk r s1 =>
    cases r with
    | ok a => simp [bindE, hms]
    | error e => simp [bindE, hms]

theorem bindE_error {α β : Type} {m : EmitM α} {k : α → EmitM β} {s s' : St}
    {e : String} (h : m s = (Except.error e, s')) :
    bindE m k s = (Except.error e, s') := by
  simp only [bindE, h]

theorem getOrCreateName_bound (o : Value) (oStr : String) (c : Core)
    (h : o.literalText ≠ none ∨ (scLookup c.valueMapper o.id).isSome = true) :
    getOrCreateName o ⟨oStr, c⟩ = (Except.ok (getNamePure c o), ⟨oStr, c⟩) := by
  match hlit : o.literalText with
  | some t => simp only [getOrCreateName, getNamePure, hlit]
  | none =>
    match hlk : scLookup c.valueMapper o.id with
    | some n => simp only [getOrCreateName, getNamePure, hlit, hlk]
    | none =>
      exfalso
      rcases h with h1 | h2
      · exact h1 hlit
      · rw [hlk] at h2; simp at h2

theorem emitOperandName_bound (o : Value) (oStr : String) (c : Core)
    (h : o.literalText ≠ none ∨ (scLookup c.valueMapper o.id).isSome = true) :
    emitOperandName o ⟨oStr, c⟩ =
      (Except.ok (), ⟨oStr ++ getNamePure c o, c⟩) := by
  rw [emitOperandName]
  simp only [bind_def]
  match hlit : o.literalText with
  | some t =>
    rw [bindE_ok (show hasValueInScope o ⟨oStr, c⟩ =
      (Except.ok (scLookup c.valueMapper o.id).isSome, ⟨oStr, c⟩) from rfl)]
    rw [if_neg (by simp [hlit])]
    rw [bindE_ok (getOrCreateName_bound o oStr c (Or.inl (by simp [hlit])))]
    simp [write, getNamePure, hlit]
  | none =>
    have h2 : (scLookup c.valueMapper o.id).isSome = true := by
      rcases h with h1 | h2
      · exact absurd hlit h1
      · exact h2
    rw [bindE_ok (show hasValueInScope o ⟨oStr, c⟩ =
      (Except.ok (scLookup c.valueMapper o.id).isSome, ⟨oStr, c⟩) from rfl)]
    rw [if_neg (by simp [h2])]
    rw [bindE_ok (getOrCreateName_bound o oStr c (Or.inr h2))]
    simp [write]

theorem interleaveTail_names_bound (c : Core) :
    ∀ (rest : List Value) (oStr : String),
      (∀ v ∈ rest, v.literalText ≠ none ∨ (scLookup c.valueMapper v.id).isSome = true) →
      interleaveTail emitOperandName (write ", ") rest ⟨oStr, c⟩ =
        (Except.ok (), ⟨oStr ++ commaNames c rest, c⟩)
  | [], oStr, _ => by simp [interleaveTail, commaNames, pure_def]
  | v :: rest, oStr, h => by
    rw [interleaveTail]
    simp only [bind_def]
    rw [bindE_ok (show write ", " ⟨oStr, c⟩ =
      (Except.ok (), ⟨oStr ++ ", ", c⟩) from rfl)]
    rw [bindE_ok (emitOperandName_bound v (oStr ++ ", ") c
      (h v (List.mem_cons_self v rest)))]
    rw [interleaveTail_names_bound c rest _
      (fun v2 hv2 => h v2 (List.mem_cons_of_mem v hv2))]
    simp [commaNames, String.append_assoc]

theorem emitOperands_bound (operands : List Value) (oStr : String) (c : Core)
    (h : ∀ v ∈ operands,
      v.literalText ≠ none ∨ (scLookup c.valueMapper v.id).isSome = true) :
    emitOperands operands ⟨oStr, c⟩ =
      (Except.ok (), ⟨oStr ++ operandNamesStr c operands, c⟩) := by
  match operands with
  | [] =>
    simp [emitOperands, interleaveCommaWithError, interleaveWithError,
      operandNamesStr, pure_def]
  | v :: rest =>
    rw [emitOperands, interleaveCommaWithError, interleaveWithError]
    simp only [bind_def]
    rw [bindE_ok (emitOperandName_bound v oStr c (h v (List.mem_cons_self v rest)))]
    rw [interleaveTail_names_bound c rest _
      (fun v2 hv2 => h v2 (List.mem_cons_of_mem v hv2))]
    simp [operandNamesStr, String.append_assoc]

/-! ## C1: the empty opaque constant -/

/-- C1 counterexample: under the inline-declare policy an emitc.constant
with empty opaque value does write declaration text (the claim says neither
policy writes any assignment or declaration text). -/
theorem C1_counterexample :
    (printConstantOp 1 (.int 32 .Signless) (.opaqueAttr "")
      ⟨"", scopeEnterC (CppEmitterInit false)⟩).1 = Except.ok () ∧
    (printConstantOp 1 (.int 32 .Signless) (.opaqueAttr "")
      ⟨"", scopeEnterC (CppEmitterInit false)⟩).2.out = "int32_t v1" ∧
    "int32_t v1" ≠ "" := by
  refine ⟨by simp, by simp <;> rfl, by decide⟩

/-- C1 (amended): for a constant-like operation whose value is an empty
opaque attribute, the declare-at-top policy emits no text at all (the state
is returned unchanged and the operation succeeds), while the inline-declare
policy emits exactly a variable declaration without initializer (the
emitVariableDeclaration path, no assignment token). -/
theorem C1_empty_opaque_constant (result : Nat) (resultType : MType) (s : St) :
    (s.core.declareVariablesAtTop = true →
      printConstantOp result resultType (.opaqueAttr "") s = (Except.ok (), s)) ∧
    (s.core.declareVariablesAtTop = false →
      printConstantOp result resultType (.opaqueAttr "") s =
        emitVariableDeclaration result resultType false s) := by
  constructor
  · intro htop
    rw [printConstantOp]
    simp only [bind_def, bindE, shouldDeclareVariablesAtTop, htop]
    simp [pure_def]
  · intro hinline
    rw [printConstantOp]
    simp only [bind_def, bindE, shouldDeclareVariablesAtTop, hinline]
    simp

/-- Witness for C1: the declare-at-top arm evaluated at a concrete state. -/
theorem C1_witness :
    printConstantOp 1 (.int 32 .Signless) (.opaqueAttr "")
        ⟨"seed", CppEmitterInit true⟩ =
      (Except.ok (), ⟨"seed", CppEmitterInit true⟩) :=
  (C1_empty_opaque_constant 1 (.int 32 .Signless)
    ⟨"seed", CppEmitterInit true⟩).1 rfl

/-! ## C10: return of a literal-defined operand -/

/-- C10: a one-operand return whose operand is defined by emitc.literal
fails (the literal bypasses the binding table, so the in-scope check after
printing reports the value unbound), yet the literal text has already been
written after the return keyword. -/
theorem C10_return_of_literal (litText : String) (vid : Nat)
    (attrs : List (String × Attr)) (s : St)
    (h : scLookup s.core.valueMapper vid = none) :
    printReturnOp [⟨vid, some litText⟩] attrs s =
      (Except.error "return of a value not in scope",
       { s with out := s.out ++ "return" ++ (" " ++ litText) }) := by
  rw [printReturnOp]
  simp only [bind_def, bindE, write, getOrCreateName, hasValueInScope]
  simp [h]

/-- Witness for C10 at a concrete literal and state. -/
theorem C10_witness :
    printReturnOp [⟨7, some "42"⟩] [] ⟨"", scopeEnterC (CppEmitterInit true)⟩ =
      (Except.error "return of a value not in scope",
       ⟨"return 42", scopeEnterC (CppEmitterInit true)⟩) := by
  have h := C10_return_of_literal "42" 7 []
    ⟨"", scopeEnterC (CppEmitterInit true)⟩ (by simp)
  simpa using h

/-! ## C3: the three return arities -/

/-- C3 counterexample: the claim says a one-operand return fails whenever the
operand has no binding in scope; but for an unbound operand that is not
literal-defined the emitter mints a binding while printing the name, and the
return succeeds. -/
theorem C3_counterexample :
    scLookup (scopeEnterC (CppEmitterInit true)).valueMapper 5 = none ∧
    (printReturnOp [⟨5, none⟩] [] ⟨"", scopeEnterC (CppEmitterInit true)⟩).1 =
      Except.ok () ∧
    (printReturnOp [⟨5, none⟩] [] ⟨"", scopeEnterC (CppEmitterInit true)⟩).2.out =
      "return v1" := by
  refine ⟨by simp, by simp, by simp <;> rfl⟩

/-- C3 (amended): a zero-operand return emits a bare return and succeeds; a
one-operand return prints the operand name resolved or minted by
getOrCreateName and succeeds unless the operand is literal-defined and
unbound (printing a non-literal unbound operand mints a binding, so only the
literal case can fail the in-scope check); a return with two or more
operands emits a std::make_tuple over all operand names and succeeds when
every operand is literal-defined or bound. -/
theorem C3_return_cases :
    (∀ (attrs : List (String × Attr)) (s : St),
      printReturnOp [] attrs s =
        (Except.ok (), { s with out := s.out ++ "return" })) ∧
    (∀ (operand : Value) (attrs : List (String × Attr)) (s : St),
      printReturnOp [operand] attrs s =
        ((if operand.literalText = none ∨
            (scLookup s.core.valueMapper operand.id).isSome = true
          then Except.ok ()
          else Except.error "return of a value not in scope"),
         ⟨s.out ++ "return" ++ (" " ++ getNamePure s.core operand),
          getNameCore s.core operand⟩)) ∧
    (∀ (o1 o2 : Value) (rest : List Value) (o : String) (c : Core),
      (∀ v ∈ o1 :: o2 :: rest,
        v.literalText ≠ none ∨ (scLookup c.valueMapper v.id).isSome = true) →
      printReturnOp (o1 :: o2 :: rest) [] ⟨o, c⟩ =
        (Except.ok (),
         ⟨o ++ "return" ++ " std::make_tuple(" ++
            operandNamesStr c (o1 :: o2 :: rest) ++ ")", c⟩)) := by
  refine ⟨fun attrs s => ?_, fun operand attrs s => ?_, fun o1 o2 rest o c h => ?_⟩
  · rw [printReturnOp]
    simp [pure_def]
  · rw [printReturnOp]
    simp only [bind_def, bindE, write]
    match hlit : operand.literalText with
    | some t =>
      by_cases hlk : (scLookup s.core.valueMapper operand.id).isSome = true
      · simp only [getOrCreateName, hasValueInScope, getNamePure, getNameCore,
          hlit, hlk]
        simp [hlit, hlk, pure_def]
      · simp only [getOrCreateName, hasValueInScope, getNamePure, getNameCore,
          hlit]
        simp [hlit, hlk, throwE]
    | none =>
      match hlk : scLookup s.core.valueMapper operand.id with
      | some n =>
        simp only [getOrCreateName, hasValueInScope, getNamePure, getNameCore,
          hlit, hlk]
        simp [hlit, hlk, pure_def]
      | none =>
        simp only [getOrCreateName, hasValueInScope, getNamePure, getNameCore,
          hlit, hlk, scLookup_insert_self]
        simp [hlit, hlk, pure_def]
  · rw [printReturnOp]
    · simp only [bind_def]
      rw [bindE_ok (show write "return" ⟨o, c⟩ =
        (Except.ok (), ⟨o ++ "return", c⟩) from rfl)]
      rw [bindE_ok (show write " std::make_tuple(" ⟨o ++ "return", c⟩ =
        (Except.ok (), ⟨o ++ "return" ++ " std::make_tuple(", c⟩) from rfl)]
      rw [emitOperandsAndAttributes]
      simp only [bind_def]
      rw [bindE_assoc]
      rw [bindE_ok (emitOperands_bound (o1 :: o2 :: rest)
        (o ++ "return" ++ " std::make_tuple(") c h)]
      simp [pure_def, interleaveCommaWithError, interleaveWithError,
        String.append_assoc]
    · simp
    · intro operand hco
      simp at hco

/-- Witness for C3: the tuple arm applied at two concrete bound operands. -/
theorem C3_witness :
    printReturnOp [⟨1, none⟩, ⟨2, some "7"⟩] []
        ⟨"", { CppEmitterInit true with valueMapper := [[(1, "v1")]] }⟩ =
      (Except.ok (),
       ⟨"return std::make_tuple(v1, 7)",
        { CppEmitterInit true with valueMapper := [[(1, "v1")]] }⟩) := by
  have h := C3_return_cases.2.2 ⟨1, none⟩ ⟨2, some "7"⟩ [] ""
    { CppEmitterInit true with valueMapper := [[(1, "v1")]] }
    (by
      intro v hv
      rcases List.mem_cons.mp hv with h1 | hv2
      · subst h1; right; simp [scLookup, scLookupFrame, CppEmitterInit]
      · rcases List.mem_cons.mp hv2 with h2 | h3
        · subst h2; left; simp
        · exact absurd h3 (List.not_mem_nil v))
  simpa using h

/-! ## C4: the multi-block declare-at-top precondition -/

/-- C4: a function body with more than one block is rejected up front under
the inline-declare policy, with the state returned untouched (nothing of the
function is emitted); under the declare-at-top policy the guard never fires
and emission proceeds into the scoped function body. -/
theorem C4_multiblock_declare_policy (name : String) (resultTypes : List MType)
    (blocks : List BBlock) (s : St) :
    (s.core.declareVariablesAtTop = false → blocks.length > 1 →
      printFuncOp name resultTypes blocks s =
        (Except.error "with multiple blocks needs variables declared at top", s)) ∧
    (s.core.declareVariablesAtTop = true →
      printFuncOp name resultTypes blocks s =
        withScope (printFuncOpBody name resultTypes blocks) s) := by
  constructor
  · intro hflag hlen
    rw [printFuncOp]
    simp only [bind_def, bindE, shouldDeclareVariablesAtTop, hflag]
    simp [hlen, throwE]
  · intro hflag
    rw [printFuncOp]
    simp only [bind_def, bindE, shouldDeclareVariablesAtTop, hflag]
    simp

/-- Witness for C4: a concrete two-block function is rejected without output
under inline-declare and emitted successfully under declare-at-top. -/
theorem C4_witness :
    printFuncOp "h" [] [⟨[], [.branchOp 1 []]⟩, ⟨[], [.returnOp [] []]⟩]
        ⟨"", CppEmitterInit false⟩ =
      (Except.error "with multiple blocks needs variables declared at top",
        ⟨"", CppEmitterInit false⟩) ∧
    (printFuncOp "h" [] [⟨[], [.branchOp 1 []]⟩, ⟨[], [.returnOp [] []]⟩]
        ⟨"", CppEmitterInit true⟩).1 = Except.ok () := by
  constructor
  · exact (C4_multiblock_declare_policy "h" []
      [⟨[], [.branchOp 1 []]⟩, ⟨[], [.returnOp [] []]⟩]
      ⟨"", CppEmitterInit false⟩).1 rfl (by decide)
  · simp

/-! ## C2: scope counters and name reuse -/

/-- C2 counterexample: the v-name counter is popped together with the scope,
so sibling scopes reuse indices: value 1 minted in one scope and value 2
minted in a sibling scope both get the name v1, and a whole translation of a
two-function module prints the parameter name v1 in both functions. -/
theorem C2_counterexample :
    (getOrCreateName ⟨1, none⟩ ⟨"", scopeEnterC (CppEmitterInit true)⟩).1 =
      Except.ok "v1" ∧
    (getOrCreateName ⟨2, none⟩ ⟨"",
        scopeEnterC (scopeExitC
          ((getOrCreateName ⟨1, none⟩
            ⟨"", scopeEnterC (CppEmitterInit true)⟩).2.core))⟩).1 =
      Except.ok "v1" ∧
    (translateToCpp (.moduleOp [
        .funcOp "a" [] [⟨[(1, .int 32 .Signless)], [.returnOp [] []]⟩],
        .funcOp "b" [] [⟨[(2, .int 32 .Signless)], [.returnOp [] []]⟩]]) true "").2.out =
      "void a(int32_t v1) \x7b\nreturn;\n\x7d\n\nvoid b(int32_t v1) \x7b\nreturn;\n\x7d\n\n\n" := by
  refine ⟨by simp <;> rfl, by simp <;> rfl, by simp <;> rfl⟩

/-- C2 (amended): scope entry pushes a copy of the enclosing counters; while
the scope is open, emission only bumps the top counter, so names minted in
one open scope chain use strictly increasing indices; scope exit pops the
binding frames together with the top counters, restoring the enclosing
counters exactly (so sibling scopes restart from the same counter value and
may reuse names); a fresh mint returns the successor of the top counter as
its v-name and bumps the counter. -/
theorem C2_scope_counter_discipline (c : Core) :
    ((scopeEnterC c).valueInScopeCount =
        stTop c.valueInScopeCount :: c.valueInScopeCount ∧
     (scopeEnterC c).labelInScopeCount =
        stTop c.labelInScopeCount :: c.labelInScopeCount) ∧
    (∀ (ctx : List BBlock) (op : Op) (semi : Bool) (o : String),
      bumpTop c.valueInScopeCount
        ((emitOperation ctx op semi ⟨o, c⟩).2.core.valueInScopeCount) ∧
      bumpTop c.labelInScopeCount
        ((emitOperation ctx op semi ⟨o, c⟩).2.core.labelInScopeCount)) ∧
    (∀ c', coreLe (scopeEnterC c) c' →
      (scopeExitC c').valueMapper = c.valueMapper ∧
      (scopeExitC c').blockMapper = c.blockMapper ∧
      (scopeExitC c').valueInScopeCount = c.valueInScopeCount ∧
      (scopeExitC c').labelInScopeCount = c.labelInScopeCount) ∧
    (∀ (v : Value) (o : String), v.literalText = none →
      scLookup c.valueMapper v.id = none →
      getOrCreateName v ⟨o, c⟩ =
        (Except.ok ("v" ++ Nat.repr (stTop c.valueInScopeCount + 1)),
         ⟨o, { c with
            valueMapper := scInsert c.valueMapper v.id
              ("v" ++ Nat.repr (stTop c.valueInScopeCount + 1))
            valueInScopeCount := stIncTop c.valueInScopeCount }⟩)) := by
  refine ⟨⟨rfl, rfl⟩, fun ctx op semi o => ?_, fun c' hle => ?_, fun v o h1 h2 => ?_⟩
  · obtain ⟨r, δ, c', hle, hrun⟩ := emOK_emitOperation ctx op semi c
    rw [hrun o]
    exact ⟨hle.2.2.2.1, hle.2.2.2.2⟩
  · obtain ⟨hflag, ⟨a, ha⟩, ⟨b, hb⟩, ⟨k1, hk1⟩, ⟨k2, hk2⟩⟩ := hle
    refine ⟨?_, ?_, ?_, ?_⟩
    · rw [show (scopeExitC c').valueMapper = c'.valueMapper.tail from rfl, ha]
      rw [show (scopeEnterC c).valueMapper = [] :: c.valueMapper from rfl]
      rw [scInsertAll_cons_frame]
      rfl
    · rw [show (scopeExitC c').blockMapper = c'.blockMapper.tail from rfl, hb]
      rw [show (scopeEnterC c).blockMapper = [] :: c.blockMapper from rfl]
      rw [scInsertAll_cons_frame]
      rfl
    · rw [show (scopeExitC c').valueInScopeCount = c'.valueInScopeCount.tail from rfl, hk1]
      rfl
    · rw [show (scopeExitC c').labelInScopeCount = c'.labelInScopeCount.tail from rfl, hk2]
      rfl
  · rw [getOrCreateName]
    simp [h1, h2]

/-- Witness for C2: a fresh mint at the constructor state returns v1 and
bumps the counter. -/
theorem C2_witness :
    getOrCreateName ⟨3, none⟩ ⟨"", CppEmitterInit true⟩ =
      (Except.ok ("v" ++ Nat.repr (stTop (CppEmitterInit true).valueInScopeCount + 1)),
       ⟨"", { CppEmitterInit true with
          valueMapper := scInsert (CppEmitterInit true).valueMapper 3
            ("v" ++ Nat.repr (stTop (CppEmitterInit true).valueInScopeCount + 1))
          valueInScopeCount := stIncTop (CppEmitterInit true).valueInScopeCount }⟩) :=
  (C2_scope_counter_discipline (CppEmitterInit true)).2.2.2 ⟨3, none⟩ "" rfl rfl

/-! ## C9: determinism of the whole translation -/

/-- C9: translation is a deterministic function of the root operation and
the declare-at-top flag: starting from a fresh emitter, the result and the
emitted bytes are the same whatever the stream already contained, and the
emitted bytes are purely appended, so two translations of the same module
from fresh state produce byte-identical output and the same result. -/
theorem C9_translate_deterministic (op : Op) (declareVariablesAtTop : Bool)
    (pre1 pre2 : String) :
    ∃ (r : Except String Unit) (δ : String) (c' : Core),
      translateToCpp op declareVariablesAtTop pre1 = (r, ⟨pre1 ++ δ, c'⟩) ∧
      translateToCpp op declareVariablesAtTop pre2 = (r, ⟨pre2 ++ δ, c'⟩) := by
  obtain ⟨r, δ, c', hle, hrun⟩ :=
    emOK_emitOperation [] op false (CppEmitterInit declareVariablesAtTop)
  exact ⟨r, δ, c', hrun pre1, hrun pre2⟩

/-! ## C5: label pre-pass and the predecessor rule -/

theorem allBlocksLabeled_mono {n : Nat} {c c' : Core} (hle : coreLe c c')
    (h : allBlocksLabeled n c) : allBlocksLabeled n c' :=
  fun j hj => scLookup_isSome_of_extendsTop hle.2.2.1 (h j hj)

theorem createBlockLabels_spec : ∀ (n idx : Nat) (oStr : String) (c : Core),
    (createBlockLabels n idx ⟨oStr, c⟩).1 = Except.ok () ∧
    (createBlockLabels n idx ⟨oStr, c⟩).2.out = oStr ∧
    coreLe c ((createBlockLabels n idx ⟨oStr, c⟩).2.core) ∧
    (∀ j, idx ≤ j → j < idx + n →
      (scLookup ((createBlockLabels n idx ⟨oStr, c⟩).2.core.blockMapper) j).isSome
        = true)
  | 0, idx, oStr, c => by
    refine ⟨rfl, rfl, coreLe_refl c, fun j h1 h2 => ?_⟩
    omega
  | n + 1, idx, oStr, c => by
    rw [createBlockLabels]
    simp only [bind_def]
    match hlk : scLookup c.blockMapper idx with
    | some nm =>
      rw [bindE_ok (show getOrCreateNameBlock idx ⟨oStr, c⟩ =
        (Except.ok nm, ⟨oStr, c⟩) from by simp only [getOrCreateNameBlock, hlk])]
      obtain ⟨hok, hout, hle, hlab⟩ := createBlockLabels_spec n (idx + 1) oStr c
      refine ⟨hok, hout, hle, fun j h1 h2 => ?_⟩
      by_cases hj : j = idx
      · rw [hj]
        exact scLookup_isSome_of_extendsTop hle.2.2.1 (by simp [hlk])
      · exact hlab j (by omega) (by omega)
    | none =>
      rw [bindE_ok (show getOrCreateNameBlock idx ⟨oStr, c⟩ =
        (Except.ok ("label" ++ Nat.repr (stTop c.labelInScopeCount + 1)),
          ⟨oStr, { c with
            blockMapper := scInsert c.blockMapper idx
              ("label" ++ Nat.repr (stTop c.labelInScopeCount + 1))
            labelInScopeCount := stIncTop c.labelInScopeCount }⟩) from
        by simp only [getOrCreateNameBlock, hlk])]
      obtain ⟨hok, hout, hle, hlab⟩ := createBlockLabels_spec n (idx + 1) oStr _
      have hstep : coreLe c { c with
          blockMapper := scInsert c.blockMapper idx
            ("label" ++ Nat.repr (stTop c.labelInScopeCount + 1))
          labelInScopeCount := stIncTop c.labelInScopeCount } :=
        ⟨rfl, extendsTop_refl _, extendsTop_insert _ _ _, bumpTop_refl _,
          bumpTop_incTop _⟩
      refine ⟨hok, hout, coreLe_trans hstep hle, fun j h1 h2 => ?_⟩
      by_cases hj : j = idx
      · rw [hj]
        refine scLookup_isSome_of_extendsTop hle.2.2.1 ?_
        show (scLookup (scInsert c.blockMapper idx
          ("label" ++ Nat.repr (stTop c.labelInScopeCount + 1))) idx).isSome = true
        rw [scLookup_insert_self]
        rfl
      · exact hlab j (by omega) (by omega)

theorem getOrCreateNameBlock_labeled (idx : Nat) (oStr : String) (c : Core)
    (nm : String) (h : scLookup c.blockMapper idx = some nm) :
    getOrCreateNameBlock idx ⟨oStr, c⟩ = (Except.ok nm, ⟨oStr, c⟩) := by
  simp only [getOrCreateNameBlock, h]

theorem emitLabel_labeled (idx : Nat) (oStr : String) (c : Core)
    (h : (scLookup c.blockMapper idx).isSome = true) :
    ∃ nm, scLookup c.blockMapper idx = some nm ∧
      emitLabel idx ⟨oStr, c⟩ = (Except.ok (), ⟨oStr ++ (nm ++ ":\n"), c⟩) := by
  obtain ⟨nm, hnm⟩ := Option.isSome_iff_exists.mp h
  refine ⟨nm, hnm, ?_⟩
  rw [emitLabel]
  simp only [bind_def]
  rw [bindE_ok (show hasBlockLabel idx ⟨oStr, c⟩ =
    (Except.ok (scLookup c.blockMapper idx).isSome, ⟨oStr, c⟩) from rfl)]
  rw [if_neg (by simp [h])]
  rw [bindE_ok (getOrCreateNameBlock_labeled idx oStr c nm hnm)]
  simp [write]

theorem getOrCreateName_ok (v : Value) (s : St) :
    ∃ n s2, getOrCreateName v s = (Except.ok n, s2) ∧ s2.out = s.out ∧
      coreLe s.core s2.core := by
  match hlit : v.literalText with
  | some t =>
    exact ⟨t, s, by simp only [getOrCreateName, hlit], rfl, coreLe_refl _⟩
  | none =>
    match hlk : scLookup s.core.valueMapper v.id with
    | some n =>
      exact ⟨n, s, by simp only [getOrCreateName, hlit, hlk], rfl, coreLe_refl _⟩
    | none =>
      refine ⟨"v" ++ Nat.repr (stTop s.core.valueInScopeCount + 1),
        { s with core := { s.core with
          valueMapper := scInsert s.core.valueMapper v.id
            ("v" ++ Nat.repr (stTop s.core.valueInScopeCount + 1))
          valueInScopeCount := stIncTop s.core.valueInScopeCount } },
        by simp only [getOrCreateName, hlit, hlk], rfl,
        ⟨rfl, extendsTop_insert _ _ _, extendsTop_refl _, bumpTop_incTop _,
          bumpTop_refl _⟩⟩

theorem branchAssignments_ok :
    ∀ (operands : List Value) (args : List (Nat × MType)) (s : St),
      ∃ s2, branchAssignments operands args s = (Except.ok (), s2) ∧
        coreLe s.core s2.core
  | operand :: rest, (argId, t) :: args, s => by
    rw [branchAssignments]
    simp only [bind_def]
    obtain ⟨a, s1, ha, _, hle1⟩ := getOrCreateName_ok ⟨argId, none⟩ s
    rw [bindE_ok ha]
    rw [bindE_ok (show write (a ++ " = ") s1 =
      (Except.ok (), { s1 with out := s1.out ++ (a ++ " = ") }) from rfl)]
    obtain ⟨o2, s2, ho2, _, hle2⟩ :=
      getOrCreateName_ok operand { s1 with out := s1.out ++ (a ++ " = ") }
    rw [bindE_ok ho2]
    rw [bindE_ok (show write (o2 ++ ";\n") s2 =
      (Except.ok (), { s2 with out := s2.out ++ (o2 ++ ";\n") }) from rfl)]
    obtain ⟨s3, h3, hle3⟩ :=
      branchAssignments_ok rest args { s2 with out := s2.out ++ (o2 ++ ";\n") }
    rw [h3]
    exact ⟨s3, rfl, coreLe_trans hle1 (coreLe_trans hle2 hle3)⟩
  | [], args, s => by
    rw [branchAssignments]
    · exact ⟨s, rfl, coreLe_refl _⟩
    · intro _ _ _ _ _ h1 _
      simp at h1
  | operand :: rest, [], s => by
    rw [branchAssignments]
    · exact ⟨s, rfl, coreLe_refl _⟩
    · intro _ _ _ _ _ _ h2
      simp at h2

theorem printBranchOp_label_ok (ctx : List BBlock) (succ : Nat)
    (operands : List Value) (s : St)
    (h : (scLookup s.core.blockMapper succ).isSome = true) :
    (printBranchOp ctx succ operands s).1 = Except.ok () := by
  rw [printBranchOp]
  simp only [bind_def]
  obtain ⟨s1, h1, hle1⟩ := branchAssignments_ok operands (successorArgs ctx succ) s
  rw [bindE_ok h1]
  rw [bindE_ok (show write "goto " s1 =
    (Except.ok (), { s1 with out := s1.out ++ "goto " }) from rfl)]
  have hsome : (scLookup s1.core.blockMapper succ).isSome = true :=
    scLookup_isSome_of_extendsTop hle1.2.2.1 h
  rw [bindE_ok (show hasBlockLabel succ { s1 with out := s1.out ++ "goto " } =
    (Except.ok (scLookup s1.core.blockMapper succ).isSome,
      { s1 with out := s1.out ++ "goto " }) from rfl)]
  rw [if_neg (by simp [hsome])]
  obtain ⟨nm, hnm⟩ := Option.isSome_iff_exists.mp hsome
  rw [bindE_ok (getOrCreateNameBlock_labeled succ _ _ nm hnm)]
  rfl

theorem emitFuncBlocks_spec_eq (ctx : List BBlock) :
    ∀ (remaining : List BBlock) (idx : Nat) (oStr : String) (c : Core),
      allBlocksLabeled (idx + remaining.length) c →
      emitFuncBlocks ctx remaining idx ⟨oStr, c⟩ =
        emitFuncBlocksSpec ctx remaining idx ⟨oStr, c⟩
  | [], idx, oStr, c, _ => by
    rw [emitFuncBlocks, emitFuncBlocksSpec]
  | .mk args ops :: rest, idx, oStr, c, hlab => by
    simp only [List.length_cons] at hlab
    have hidx : idx < idx + (rest.length + 1) := by omega
    obtain ⟨r2, δ2, c2, hle2, hrun2⟩ := emOK_printBlockOps ctx ops c
    have hlab2 : allBlocksLabeled ((idx + 1) + rest.length) c2 := by
      have hm := allBlocksLabeled_mono hle2 hlab
      rwa [show idx + (rest.length + 1) = (idx + 1) + rest.length from by omega]
        at hm
    by_cases hpred : hasNoPredecessorsB ctx idx = true
    · rw [emitFuncBlocks]
      rw [if_neg (by rw [hpred]; decide)]
      simp only [bind_def]
      rw [bindE_ok (show (pure PUnit.unit : EmitM PUnit) ⟨oStr, c⟩ =
        (Except.ok PUnit.unit, ⟨oStr, c⟩) from rfl)]
      rw [emitFuncBlocksSpec]
      simp only []
      rw [hpred, if_pos rfl, String.append_empty]
      match r2, hrun2 with
      | .error e, hrun2 =>
        rw [bindE_error (hrun2 oStr), bindE_error (hrun2 oStr)]
      | .ok _, hrun2 =>
        rw [bindE_ok (hrun2 oStr), bindE_ok (hrun2 oStr)]
        exact emitFuncBlocks_spec_eq ctx rest (idx + 1) (oStr ++ δ2) c2 hlab2
    · have hpredF : hasNoPredecessorsB ctx idx = false := by
        cases hp2 : hasNoPredecessorsB ctx idx
        · rfl
        · exact absurd hp2 hpred
      have hlabel : (scLookup c.blockMapper idx).isSome = true := hlab idx hidx
      obtain ⟨nm, hnm, hlabelRun⟩ := emitLabel_labeled idx oStr c hlabel
      rw [emitFuncBlocks]
      rw [if_pos (by rw [hpredF]; decide)]
      simp only [bind_def]
      rw [bindE_ok hlabelRun]
      rw [emitFuncBlocksSpec]
      simp only []
      rw [hpredF, if_neg (by decide), hnm, Option.getD_some]
      match r2, hrun2 with
      | .error e, hrun2 =>
        rw [bindE_error (hrun2 (oStr ++ (nm ++ ":\n"))),
          bindE_error (hrun2 (oStr ++ (nm ++ ":\n")))]
      | .ok _, hrun2 =>
        rw [bindE_ok (hrun2 (oStr ++ (nm ++ ":\n"))),
          bindE_ok (hrun2 (oStr ++ (nm ++ ":\n")))]
        exact emitFuncBlocks_spec_eq ctx rest (idx + 1)
          (oStr ++ (nm ++ ":\n") ++ δ2) c2 hlab2

/-- C5: block labels are created for every block of a function body before
any block operations are emitted (the label pre-pass assigns a label to
every index and writes nothing), labels persist through any operation
emission while the scope stays open, the block-emission loop of a function
whose blocks all carry labels is equal, state for state, to the
specification-shaped loop emitFuncBlocksSpec that appends the assigned
label of the block (looked up in the block mapper) followed by a colon and
a newline before the block operations exactly when the block has at least
one predecessor edge and appends no label text at all for a
predecessor-less block, and a branch whose successor block carries a label
succeeds (it cannot hit the missing-label error). -/
theorem C5_block_labels :
    (∀ (n : Nat) (oStr : String) (c : Core),
      (createBlockLabels n 0 ⟨oStr, c⟩).1 = Except.ok () ∧
      (createBlockLabels n 0 ⟨oStr, c⟩).2.out = oStr ∧
      allBlocksLabeled n ((createBlockLabels n 0 ⟨oStr, c⟩).2.core)) ∧
    (∀ (n : Nat) (ctx : List BBlock) (op : Op) (semi : Bool) (s : St),
      allBlocksLabeled n s.core →
      allBlocksLabeled n ((emitOperation ctx op semi s).2.core)) ∧
    (∀ (ctx remaining : List BBlock) (idx : Nat) (oStr : String) (c : Core),
      allBlocksLabeled (idx + remaining.length) c →
      emitFuncBlocks ctx remaining idx ⟨oStr, c⟩ =
        emitFuncBlocksSpec ctx remaining idx ⟨oStr, c⟩) ∧
    (∀ (ctx : List BBlock) (succ : Nat) (operands : List Value) (s : St),
      (scLookup s.core.blockMapper succ).isSome = true →
      (printBranchOp ctx succ operands s).1 = Except.ok ()) := by
  refine ⟨fun n oStr c => ?_, fun n ctx op semi s h => ?_,
    fun ctx remaining idx oStr c h =>
      emitFuncBlocks_spec_eq ctx remaining idx oStr c h,
    fun ctx succ operands s h => printBranchOp_label_ok ctx succ operands s h⟩
  · obtain ⟨hok, hout, hle, hlab⟩ := createBlockLabels_spec n 0 oStr c
    exact ⟨hok, hout, fun j hj => hlab j (Nat.zero_le j) (by omega)⟩
  · obtain ⟨r, δ, c', hle, hrun⟩ := emOK_emitOperation ctx op semi s.core
    have hs : emitOperation ctx op semi s = (r, ⟨s.out ++ δ, c'⟩) := by
      rw [show s = (⟨s.out, s.core⟩ : St) from rfl]
      exact hrun s.out
    rw [hs]
    exact allBlocksLabeled_mono hle h

/-- Witness for C5: on a concrete two-block function whose labels have been
pre-assigned, the block loop equals the specification-shaped loop, and the
emitted text carries no label line for the entry block (no predecessors)
and exactly the assigned label line for the branch target. -/
theorem C5_witness :
    (emitFuncBlocks [⟨[], [Op.branchOp 1 []]⟩, ⟨[], [Op.returnOp [] []]⟩]
        [⟨[], [Op.branchOp 1 []]⟩, ⟨[], [Op.returnOp [] []]⟩] 0
        ⟨"", { declareVariablesAtTop := true, valueMapper := [[]],
               blockMapper := [[(1, "label2"), (0, "label1")]],
               valueInScopeCount := [0, 0], labelInScopeCount := [2, 0],
               indentLevel := 0 }⟩ =
      emitFuncBlocksSpec [⟨[], [Op.branchOp 1 []]⟩, ⟨[], [Op.returnOp [] []]⟩]
        [⟨[], [Op.branchOp 1 []]⟩, ⟨[], [Op.returnOp [] []]⟩] 0
        ⟨"", { declareVariablesAtTop := true, valueMapper := [[]],
               blockMapper := [[(1, "label2"), (0, "label1")]],
               valueInScopeCount := [0, 0], labelInScopeCount := [2, 0],
               indentLevel := 0 }⟩) ∧
    (emitFuncBlocksSpec [⟨[], [Op.branchOp 1 []]⟩, ⟨[], [Op.returnOp [] []]⟩]
        [⟨[], [Op.branchOp 1 []]⟩, ⟨[], [Op.returnOp [] []]⟩] 0
        ⟨"", { declareVariablesAtTop := true, valueMapper := [[]],
               blockMapper := [[(1, "label2"), (0, "label1")]],
               valueInScopeCount := [0, 0], labelInScopeCount := [2, 0],
               indentLevel := 0 }⟩).2.out = "goto label2;\nlabel2:\nreturn;\n" :=
  ⟨C5_block_labels.2.2.1
      [⟨[], [Op.branchOp 1 []]⟩, ⟨[], [Op.returnOp [] []]⟩]
      [⟨[], [Op.branchOp 1 []]⟩, ⟨[], [Op.returnOp [] []]⟩] 0 ""
      { declareVariablesAtTop := true, valueMapper := [[]],
        blockMapper := [[(1, "label2"), (0, "label1")]],
        valueInScopeCount := [0, 0], labelInScopeCount := [2, 0],
        indentLevel := 0 }
      (by
        intro j hj
        match j with
        | 0 => simp
        | 1 => simp
        | n + 2 => simp at hj),
    by simp⟩

end EmitCpp
